import Mathlib

/-!
Shallow embedding of `src/integrity/check.py` from the repository
`tournament-data-integrity`, together with theorems settling the frozen
claims about its specification.

Modelling conventions:
* Python floats are modelled as rationals (`ℚ`): every finite double is a
  rational number, and all comparisons performed by the code are exact
  comparisons on such values.  `NaN`/`inf` have no rational model, hence
  `np.isfinite` is constantly true on representable values.
* The global `logging` side effect is modelled as the list of emitted log
  lines, in emission order.  A log line is stored structurally (severity
  tag, message, and the numeric values interpolated into the format
  string) rather than as the final formatted string.
* A Python exception (`raise ValueError`, `UnboundLocalError`, numpy's
  error on an empty reduction) is modelled as `Except.error`.
* External collaborators that are not part of this repository
  (`sklearn.linear_model.LogisticRegression`, `sklearn.metrics.log_loss`,
  `np.corrcoef`, `np.sqrt`, the float value of `np.log(2)`) are abstract
  parameters of the functions that call them.
* `ni.util.upper_triangle` is repository code that is not under `src/`;
  it is modelled from the spec (see its doc comment).
-/

attribute [local semireducible] Rat.add Rat.sub Rat.mul Rat.inv Rat.ofScientific

namespace Integrity

/-- A structurally stored log line: one constructor per logging call site
shape in `check.py`.  The `level` field is the severity tag chosen by
`get_logger`; the numeric fields are the values interpolated into the
format string of that call site. -/
inductive LogLine where
  | info (msg : String)
  | intervalFail (level msg : String) (value lo hi : ℚ)
  | arrayIntervalFail (level msg : String) (amin amax lo hi : ℚ)
  | assertFail (level msg : String) (value : ℚ) (oppo : String) (target : ℚ)
  | warnSet (msg : String) (items : List String)
  deriving DecidableEq

deriving instance DecidableEq for Except

/-- The severity levels accepted by `get_logger`. -/
def recognizedLevels : List String := ["info", "warn", "error", "critical"]

/-- `get_logger(level)` from check.py: returns the logging sink selected by
the severity string (modelled by the severity tag itself), and raises
`ValueError` on any other string. -/
def get_logger (level : String) : Except String String :=
  if level = "info" then Except.ok "info"
  else if level = "warn" then Except.ok "warn"
  else if level = "error" then Except.ok "error"
  else if level = "critical" then Except.ok "critical"
  else Except.error "logging level not recognized"

/-- `interval(message, value, limit, level)` from check.py.  Note that
`get_logger` is only invoked inside the failure branch. -/
def interval (message : String) (value : ℚ) (limit : ℚ × ℚ) (level : String) :
    Except String (List LogLine) :=
  if value < limit.1 ∨ value > limit.2 then
    match get_logger level with
    | Except.error e => Except.error e
    | Except.ok lv => Except.ok [LogLine.intervalFail lv message value limit.1 limit.2]
  else Except.ok []

/-- `arr.min()` of numpy: raises on an empty array, otherwise the least
element. -/
def npMin (l : List ℚ) : Except String ℚ :=
  match l with
  | [] => Except.error "zero-size array to reduction operation minimum"
  | a :: rest => Except.ok (rest.foldl min a)

/-- `arr.max()` of numpy: raises on an empty array, otherwise the greatest
element. -/
def npMax (l : List ℚ) : Except String ℚ :=
  match l with
  | [] => Except.error "zero-size array to reduction operation maximum"
  | a :: rest => Except.ok (rest.foldl max a)

/-- Total variant of `npMin` (0 on the empty array), used to name the value
`npMin` returns on a nonempty array. -/
def npMinD (l : List ℚ) : ℚ :=
  match l with
  | [] => 0
  | a :: rest => rest.foldl min a

/-- Total variant of `npMax` (0 on the empty array). -/
def npMaxD (l : List ℚ) : ℚ :=
  match l with
  | [] => 0
  | a :: rest => rest.foldl max a

/-- `array_interval(message, arr, limit, level)` from check.py: computes
`arr.min()` and `arr.max()` first (numpy raises on an empty array), then
behaves like `interval` on the pair. -/
def array_interval (message : String) (arr : List ℚ) (limit : ℚ × ℚ) (level : String) :
    Except String (List LogLine) := do
  let amin ← npMin arr
  let amax ← npMax arr
  if amin < limit.1 ∨ amax > limit.2 then
    match get_logger level with
    | Except.error e => Except.error e
    | Except.ok lv =>
        Except.ok [LogLine.arrayIntervalFail lv message amin amax limit.1 limit.2]
  else Except.ok []

/-- The keys of the `oppo` dictionary in `_assert`. -/
def assertOps : List String := ["==", "!=", ">", "<=", "<", ">="]

/-- The `oppo` dictionary of `_assert`, as a lookup function. -/
def oppoOp (op : String) : String :=
  if op = "==" then "!="
  else if op = "!=" then "=="
  else if op = ">" then "<="
  else if op = "<=" then ">"
  else if op = "<" then ">="
  else if op = ">=" then "<"
  else ""

/-- `_assert(message, value, op, target, level)` from check.py, including its
two quirks, which are modelled with an `Option Bool` for the Python local
`failed`:
* the duplicate `elif op == c.le` branch (the sixth arm below), which can
  never be reached because the fourth arm tests the same string;
* for `op = c.ge` the `op in oppo` guard passes but no branch assigns
  `failed`, so the final `if failed:` raises `UnboundLocalError`
  (modelled as `Except.error`). -/
def _assert (message : String) (value : ℚ) (op : String) (target : ℚ) (level : String) :
    Except String (List LogLine) :=
  if op ∉ assertOps then Except.error "operation op is not recognized"
  else
    let failed : Option Bool :=
      if op = "==" then some (decide (value ≠ target))
      else if op = "!=" then some (decide (value = target))
      else if op = ">" then some (decide (value ≤ target))
      else if op = "<=" then some (decide (value > target))
      else if op = "<" then some (decide (value ≥ target))
      else if op = "<=" then some (decide (value < target))
      else none
    match failed with
    | none => Except.error "local variable failed referenced before assignment"
    | some f =>
      if f then
        match get_logger level with
        | Except.error e => Except.error e
        | Except.ok lv => Except.ok [LogLine.assertFail lv message value (oppoOp op) target]
      else Except.ok []

/-- `_assert` with the unreachable duplicate branch for the `le` operator
removed, and nothing else changed (the spec's recommended form). -/
def assertClean (message : String) (value : ℚ) (op : String) (target : ℚ) (level : String) :
    Except String (List LogLine) :=
  if op ∉ assertOps then Except.error "operation op is not recognized"
  else
    let failed : Option Bool :=
      if op = "==" then some (decide (value ≠ target))
      else if op = "!=" then some (decide (value = target))
      else if op = ">" then some (decide (value ≤ target))
      else if op = "<=" then some (decide (value > target))
      else if op = "<" then some (decide (value ≥ target))
      else none
    match failed with
    | none => Except.error "local variable failed referenced before assignment"
    | some f =>
      if f then
        match get_logger level with
        | Except.error e => Except.error e
        | Except.ok lv => Except.ok [LogLine.assertFail lv message value (oppoOp op) target]
      else Except.ok []

/-- numpy boolean-mask selection `xs[mask]` on aligned per-row sequences. -/
def maskSelect {α : Type} (xs : List α) (mask : List Bool) : List α :=
  ((xs.zip mask).filter (fun p => p.2)).map (fun p => p.1)

/-- numpy integer fancy indexing `xs[idx]` (the collaborator guarantees the
indices are in range; out-of-range indices default to 0 in the model). -/
def indexSelect (xs : List ℚ) (idx : List ℕ) : List ℚ :=
  idx.map (fun i => xs.getD i 0)

/-- `arr.sum()` on a rational array. -/
def listSum (l : List ℚ) : ℚ := l.foldl (fun a b => a + b) 0

/-- `arr.mean()` on a rational array (numpy's sum divided by length; on the
empty array numpy produces NaN, which has no rational model — the model
yields 0 there, and no claim evaluates that corner). -/
def listMean (l : List ℚ) : ℚ := listSum l / (l.length : ℚ)

/-- `.mean()` of a boolean numpy array: the fraction of `true` entries. -/
def boolMean (l : List Bool) : ℚ := ((l.countP id : ℕ) : ℚ) / (l.length : ℚ)

/-- Lexicographic comparison of character lists by code point (the order
numpy sorts strings in). -/
def charListLe : List Char → List Char → Bool
  | [], _ => true
  | _ :: _, [] => false
  | a :: as, b :: bs =>
      if a.toNat < b.toNat then true
      else if b.toNat < a.toNat then false
      else charListLe as bs

/-- String comparison by code-point order. -/
def strLe (a b : String) : Bool := charListLe a.data b.data

/-- Insert a string into a (sorted) list, keeping it sorted. -/
def insertSorted (a : String) : List String → List String
  | [] => [a]
  | b :: bs => if strLe a b then a :: b :: bs else b :: insertSorted a bs

/-- `np.unique`: the distinct values of the array, in sorted order
(insertion sort of the deduplicated values). -/
def npUnique (l : List String) : List String := l.dedup.foldr insertSorted []

/-- Python's `str.ljust`: pad on the right with spaces to the given width. -/
def ljust (s : String) (w : ℕ) : String :=
  s ++ String.pushn "" (Char.ofNat 32) (w - s.length)

/-- The `"%2d"` format of a (nonnegative) feature number. -/
def fmt2 (n : ℕ) : String := if n < 10 then " " ++ toString n else toString n

/-- Models `np.isfinite` on the rational model of floating-point values:
every representable value is finite (NaN and infinity have no rational
model). -/
def finiteQ (_ : ℚ) : Bool := true

/-- Modelled from the spec: `ni.util.upper_triangle` (imported by check.py
but not present under `src/`) extracts the strict upper triangle of a
square matrix — the entries strictly above the diagonal, each unordered
pair counted once, the diagonal excluded; `N*(N-1)/2` entries for an
`N × N` matrix. -/
def upper_triangle (m : List (List ℚ)) : List ℚ :=
  ((List.range m.length).map (fun i => (m.getD i []).drop (i + 1))).flatten

/-- The dataset under audit (spec §3): aligned per-row columns plus the
three collaborator-provided iteration protocols (spec §6). -/
structure Dataset where
  ID : List String
  era : List String
  region : List String
  x : List (List ℚ)
  y : List ℚ
  era_feature_iter : List (String × ℕ × List ℚ)
  era_iter : List (String × List ℕ)
  nonmissing_label_index : List ℕ

/-- `ids(data)` from check.py. -/
def ids (data : Dataset) : Except String (List LogLine) := do
  let num_duplicate : ℚ := (data.ID.length : ℚ) - ((npUnique data.ID).length : ℚ)
  let r ← _assert "duplicate ids" num_duplicate "==" 0 "warn"
  pure (LogLine.info "IDS" :: r)

/-- The expected era-count mapping of `eras(data)` (a Python dict; insertion
order train, validation, test, live). -/
def eraTarget : List (String × ℕ) :=
  [("train", 85), ("validation", 12), ("test", 1), ("live", 1)]

/-- The number of distinct era labels among the rows of a region:
`np.unique(data.era[data.region == region]).size`. -/
def eraCount (data : Dataset) (r : String) : ℕ :=
  (npUnique (maskSelect data.era (data.region.map (fun s => s == r)))).length

/-- `eras(data)` from check.py. -/
def eras (data : Dataset) : Except String (List LogLine) := do
  let rs ← eraTarget.foldlM (fun acc p => do
      let r ← _assert ("number of eras in " ++ p.1) ((eraCount data p.1 : ℕ) : ℚ)
          "==" ((p.2 : ℕ) : ℚ) "warn"
      pure (acc ++ r)) ([] : List LogLine)
  pure (LogLine.info "ERAS" :: rs)

/-- The expected region set of `regions(data)`. -/
def regionTarget : List String := ["train", "validation", "test", "live"]

/-- `regions(data)` from check.py: pure logging, can never raise.  Python
set differences are modelled by filtering the deduplicated sorted value
lists. -/
def regions (data : Dataset) : List LogLine :=
  let regs := npUnique data.region
  if regs.all (fun r => regionTarget.contains r) ∧
      regionTarget.all (fun r => regs.contains r) then
    [LogLine.info "REGIONS"]
  else
    let extra := regs.filter (fun r => ! regionTarget.contains r)
    let missing := regionTarget.filter (fun r => ! regs.contains r)
    LogLine.info "REGIONS" ::
      ((if extra.length > 0 then [LogLine.warnSet "extra regions found" extra] else []) ++
       (if missing.length > 0 then [LogLine.warnSet "missing regions" missing] else []))

/-- The per-(era, feature) moment checks of `features(data)`: the body of
the `data.era_feature_iter()` loop.  `sqrtF` models the float square root
used by `numpy.ndarray.std`. -/
def featureMoments (sqrtF : ℚ → ℚ) (t : String × ℕ × List ℚ) :
    Except String (List LogLine) := do
  let era := t.1
  let feature_num := t.2.1
  let x := t.2.2
  let l1 ← array_interval ("range of feature " ++ fmt2 feature_num ++ " in " ++ ljust era 6)
      x (0, 1) "warn"
  let m := listMean x
  let l2 ← interval ("mean  of feature " ++ fmt2 feature_num ++ " in " ++ ljust era 6)
      m (0.45, 0.551) "warn"
  let sd := sqrtF (listMean (x.map (fun v => (v - m) ^ 2)))
  let l3 ← interval ("std   of feature " ++ fmt2 feature_num ++ " in " ++ ljust era 6)
      sd (0.09, 0.15) "warn"
  let skew := listMean (x.map (fun v => (v - m) ^ 3)) / sd ^ 3
  let l4 ← interval ("skewn of feature " ++ fmt2 feature_num ++ " in " ++ ljust era 6)
      skew (-0.44, 0.44) "warn"
  let kurt := listMean (x.map (fun v => (v - m) ^ 4)) / sd ^ 4
  let l5 ← interval ("kurto of feature " ++ fmt2 feature_num ++ " in " ++ ljust era 6)
      kurt (2.45, 3.58) "warn"
  pure (l1 ++ l2 ++ l3 ++ l4 ++ l5)

/-- `features(data)` from check.py.  `corrcoef` models `np.corrcoef` (an
external numeric routine) applied to the transposed feature matrix. -/
def features (sqrtF : ℚ → ℚ) (corrcoef : List (List ℚ) → List (List ℚ))
    (data : Dataset) : Except String (List LogLine) := do
  let n : ℚ := (((data.x.map (fun row => row.countP (fun v => ! finiteQ v))).sum : ℕ) : ℚ)
  let l1 ← _assert "nonfinite feature values" n "==" 0 "warn"
  let corr := (upper_triangle (corrcoef data.x.transpose)).map (fun v => |v|)
  let l2 ← interval "mean abs corr of features" (listMean corr) (0.18, 0.22) "warn"
  let cmax ← npMax corr
  let l3 ← interval "max  abs corr of features" cmax (0.72, 0.76) "warn"
  let l4 ← data.era_feature_iter.foldlM (fun acc t => do
      let r ← featureMoments sqrtF t
      pure (acc ++ r)) ([] : List LogLine)
  pure (LogLine.info "FEATURES" :: (l1 ++ l2 ++ l3 ++ l4))

/-- The body of the `data.era_iter()` loop in `labels(data)`: the two
per-era interval checks, returning the per-era label mean that the caller
accumulates into `y_mean`. -/
def labelsEra (yall : List ℚ) (p : String × List ℕ) :
    Except String (List LogLine × ℚ) := do
  let y := indexSelect yall p.2
  let ym := listMean y
  let l1 ← interval ("mean of labels in " ++ ljust p.1 6) ym (0.499, 0.501) "warn"
  let limit : ℚ × ℚ := if p.1 = "eraX" then (270000, 280000) else (5920, 6800)
  let l2 ← interval ("num  of labels in " ++ ljust p.1 6) ((y.length : ℕ) : ℚ) limit "warn"
  pure (l1 ++ l2, ym)

/-- `labels(data)` from check.py. -/
def labels (data : Dataset) : Except String (List LogLine) := do
  let y0 := indexSelect data.y data.nonmissing_label_index
  let good := y0.countP (fun v => decide (v = 0) || decide (v = 1))
  let l1 ← _assert "number of non 0, 1 labels" ((y0.length : ℚ) - (good : ℚ)) "==" 0 "warn"
  let res ← data.era_iter.foldlM (fun (acc : List LogLine × List ℚ) p => do
      let r ← labelsEra data.y p
      pure (acc.1 ++ r.1, acc.2 ++ [r.2])) (([] : List LogLine), ([] : List ℚ))
  let l3 ← interval "fraction of eras with label mean less than half"
      (boolMean (res.2.map (fun v => decide (v < 0.5)))) (0.4, 0.6) "warn"
  pure (LogLine.info "LABELS" :: (l1 ++ res.1 ++ l3))

/-- `calc_yhat(region, clf, data)` from check.py.  `clf` is the fitted
classifier's positive-class `predict_proba` column, an external
collaborator modelled as a function. -/
def calc_yhat (region : String) (clf : List (List ℚ) → List ℚ) (data : Dataset) :
    List ℚ × List ℚ :=
  let idx := data.region.map (fun s => s == region)
  (maskSelect data.y idx, clf (maskSelect data.x idx))

/-- `logloss_by_era(era, y, yhat)` from check.py.  `log_loss` models
`sklearn.metrics.log_loss`, an external numeric routine. -/
def logloss_by_era (log_loss : List ℚ → List ℚ → ℚ) (era : List String)
    (y yhat : List ℚ) : List ℚ :=
  (npUnique era).map (fun e =>
    let idx := era.map (fun s => s == e)
    log_loss (maskSelect y idx) (maskSelect yhat idx))

/-- `predictions(data)` from check.py.  The external collaborators are
parameters: `fit` models `LogisticRegression().fit` (returning the fitted
classifier's positive-class `predict_proba` column, or raising), `log_loss`
models `sklearn.metrics.log_loss`, and `log2` models the float `np.log(2)`.
The `for region in (test, live)` loop is unrolled. -/
def predictions (fit : List (List ℚ) → List ℚ → Except String (List (List ℚ) → List ℚ))
    (log_loss : List ℚ → List ℚ → ℚ) (log2 : ℚ) (data : Dataset) :
    Except String (List LogLine) := do
  let idx := data.region.map (fun s => s == "train")
  let xtrain := maskSelect data.x idx
  let ytrain := maskSelect data.y idx
  let eratrain := maskSelect data.era idx
  let clf ← fit xtrain ytrain
  let yhat_train := clf xtrain
  let l1 ← interval "train logloss" (log_loss ytrain yhat_train) (0.691, 0.693) "warn"
  let loglosses := logloss_by_era log_loss eratrain ytrain yhat_train
  let l2 ← interval "train consistency"
      (boolMean (loglosses.map (fun v => decide (v < log2)))) (0.57, 0.84) "warn"
  let vp := calc_yhat "validation" clf data
  let l3 ← interval "validation logloss" (log_loss vp.1 vp.2) (0.691, 0.693) "warn"
  let idxv := data.region.map (fun s => s == "validation")
  let loglossesv := logloss_by_era log_loss (maskSelect data.era idxv) vp.1 vp.2
  let l4 ← interval "validation consistency"
      (boolMean (loglossesv.map (fun v => decide (v < log2)))) (0.5, 0.84) "warn"
  let tp := calc_yhat "test" clf data
  let tmin1 ← npMin yhat_train
  let tmax1 ← npMax yhat_train
  let l5 ← array_interval "predictions in test region" tp.2
      (0.99 * tmin1, 1.01 * tmax1) "warn"
  let lp := calc_yhat "live" clf data
  let tmin2 ← npMin yhat_train
  let tmax2 ← npMax yhat_train
  let l6 ← array_interval "predictions in live region" lp.2
      (0.99 * tmin2, 1.01 * tmax2) "warn"
  pure (LogLine.info "PREDICTIONS" :: (l1 ++ l2 ++ l3 ++ l4 ++ l5 ++ l6))

/-- `check(data)` from check.py: the orchestrator, running the six check
groups in order; the emitted log is their concatenation. -/
def check (sqrtF : ℚ → ℚ) (corrcoef : List (List ℚ) → List (List ℚ))
    (fit : List (List ℚ) → List ℚ → Except String (List (List ℚ) → List ℚ))
    (log_loss : List ℚ → List ℚ → ℚ) (log2 : ℚ) (data : Dataset) :
    Except String (List LogLine) := do
  let r1 ← ids data
  let r2 ← eras data
  let r3 := regions data
  let r4 ← features sqrtF corrcoef data
  let r5 ← labels data
  let r6 ← predictions fit log_loss log2 data
  pure (r1 ++ r2 ++ r3 ++ r4 ++ r5 ++ r6)

/-! ### Basic lemmas about the primitives -/

theorem ok_bind {α β : Type} (a : α) (f : α → Except String β) :
    (Except.ok a : Except String α) >>= f = f a := rfl

theorem get_logger_of_mem {lv : String} (h : lv ∈ recognizedLevels) :
    get_logger lv = Except.ok lv := by
  simp only [recognizedLevels, List.mem_cons, List.not_mem_nil, or_false] at h
  rcases h with rfl | rfl | rfl | rfl <;> rfl

theorem get_logger_error {lv : String} (h : lv ∉ recognizedLevels) :
    get_logger lv = Except.error "logging level not recognized" := by
  simp only [recognizedLevels, List.mem_cons, List.mem_singleton, not_or] at h
  obtain ⟨h1, h2, h3, h4⟩ := h
  simp [get_logger, h1, h2, h3, h4]

theorem interval_eq (m : String) (v : ℚ) (l : ℚ × ℚ) {lv : String}
    (h : lv ∈ recognizedLevels) :
    interval m v l lv =
      Except.ok (if v < l.1 ∨ v > l.2 then [LogLine.intervalFail lv m v l.1 l.2] else []) := by
  by_cases hc : v < l.1 ∨ v > l.2 <;> simp [interval, get_logger_of_mem h, hc]

theorem array_interval_eq (m : String) {arr : List ℚ} (l : ℚ × ℚ) {lv : String} {a b : ℚ}
    (hmin : npMin arr = Except.ok a) (hmax : npMax arr = Except.ok b)
    (h : lv ∈ recognizedLevels) :
    array_interval m arr l lv =
      Except.ok (if a < l.1 ∨ b > l.2 then [LogLine.arrayIntervalFail lv m a b l.1 l.2] else []) := by
  by_cases hc : a < l.1 ∨ b > l.2 <;>
    simp [array_interval, hmin, hmax, ok_bind, get_logger_of_mem h, hc]

/-- The failure predicate of each handled `_assert` operator (the branch
table of `_assert`; the unhandled `ge` operator has no failure value). -/
def assertFailed (op : String) (value target : ℚ) : Bool :=
  if op = "==" then decide (value ≠ target)
  else if op = "!=" then decide (value = target)
  else if op = ">" then decide (value ≤ target)
  else if op = "<=" then decide (value > target)
  else if op = "<" then decide (value ≥ target)
  else false

/-- The five operators for which `_assert` assigns its `failed` local. -/
def handledOps : List String := ["==", "!=", ">", "<=", "<"]

theorem assert_eq (m : String) (v t : ℚ) {op lv : String}
    (hop : op ∈ handledOps) (hlv : lv ∈ recognizedLevels) :
    _assert m v op t lv =
      Except.ok (if assertFailed op v t then [LogLine.assertFail lv m v (oppoOp op) t] else []) := by
  simp only [handledOps, List.mem_cons, List.not_mem_nil, or_false] at hop
  rcases hop with rfl | rfl | rfl | rfl | rfl <;>
    · simp only [_assert, assertFailed, assertOps, oppoOp]
      split <;> simp_all [get_logger_of_mem hlv]
      all_goals (split <;> simp_all)

theorem foldl_min_mem (l : List ℚ) : ∀ x, l.foldl min x ∈ x :: l := by
  induction l with
  | nil => intro x; simp
  | cons c cs ih =>
    intro x
    rw [List.foldl_cons]
    rcases List.mem_cons.mp (ih (min x c)) with h1 | h1
    · rw [h1]
      rcases min_choice x c with h2 | h2 <;> rw [h2] <;> simp
    · exact List.mem_cons.mpr (Or.inr (List.mem_cons.mpr (Or.inr h1)))

theorem foldl_min_le (l : List ℚ) : ∀ x, ∀ p ∈ x :: l, l.foldl min x ≤ p := by
  induction l with
  | nil =>
    intro x p hp
    simp only [List.mem_singleton] at hp
    simp [hp]
  | cons c cs ih =>
    intro x p hp
    rw [List.foldl_cons]
    rcases List.mem_cons.mp hp with hpx | hp1
    · rw [hpx]
      exact le_trans (ih (min x c) (min x c) (List.mem_cons_self _ _)) (min_le_left x c)
    · rcases List.mem_cons.mp hp1 with hpc | hp2
      · rw [hpc]
        exact le_trans (ih (min x c) (min x c) (List.mem_cons_self _ _)) (min_le_right x c)
      · exact ih (min x c) p (List.mem_cons.mpr (Or.inr hp2))

theorem foldl_max_mem (l : List ℚ) : ∀ x, l.foldl max x ∈ x :: l := by
  induction l with
  | nil => intro x; simp
  | cons c cs ih =>
    intro x
    rw [List.foldl_cons]
    rcases List.mem_cons.mp (ih (max x c)) with h1 | h1
    · rw [h1]
      rcases max_choice x c with h2 | h2 <;> rw [h2] <;> simp
    · exact List.mem_cons.mpr (Or.inr (List.mem_cons.mpr (Or.inr h1)))

theorem foldl_max_ge (l : List ℚ) : ∀ x, ∀ p ∈ x :: l, p ≤ l.foldl max x := by
  induction l with
  | nil =>
    intro x p hp
    simp only [List.mem_singleton] at hp
    simp [hp]
  | cons c cs ih =>
    intro x p hp
    rw [List.foldl_cons]
    rcases List.mem_cons.mp hp with hpx | hp1
    · rw [hpx]
      exact le_trans (le_max_left x c) (ih (max x c) (max x c) (List.mem_cons_self _ _))
    · rcases List.mem_cons.mp hp1 with hpc | hp2
      · rw [hpc]
        exact le_trans (le_max_right x c) (ih (max x c) (max x c) (List.mem_cons_self _ _))
      · exact ih (max x c) p (List.mem_cons.mpr (Or.inr hp2))

theorem npMin_spec {l : List ℚ} {a : ℚ} (h : npMin l = Except.ok a) :
    a ∈ l ∧ ∀ p ∈ l, a ≤ p := by
  match l with
  | [] => simp [npMin] at h
  | x :: rest =>
    simp only [npMin, Except.ok.injEq] at h
    subst h
    exact ⟨foldl_min_mem rest x, fun p hp => foldl_min_le rest x p hp⟩

theorem npMax_spec {l : List ℚ} {b : ℚ} (h : npMax l = Except.ok b) :
    b ∈ l ∧ ∀ p ∈ l, p ≤ b := by
  match l with
  | [] => simp [npMax] at h
  | x :: rest =>
    simp only [npMax, Except.ok.injEq] at h
    subst h
    exact ⟨foldl_max_mem rest x, fun p hp => foldl_max_ge rest x p hp⟩

theorem npMin_ok_of_ne {l : List ℚ} (h : l ≠ []) : npMin l = Except.ok (npMinD l) := by
  match l with
  | [] => exact absurd rfl h
  | x :: rest => rfl

theorem npMax_ok_of_ne {l : List ℚ} (h : l ≠ []) : npMax l = Except.ok (npMaxD l) := by
  match l with
  | [] => exact absurd rfl h
  | x :: rest => rfl


theorem assert_eqq (m : String) (v t : ℚ) :
    _assert m v "==" t "warn" =
      Except.ok (if v = t then [] else [LogLine.assertFail "warn" m v "!=" t]) := by
  rw [assert_eq m v t (by decide) (by decide)]
  by_cases h : v = t <;> simp [assertFailed, oppoOp, h]

/-! ### Claims about the assertion primitives (C1, C2, C9, C10) -/

/-- C1 counterexample: the claim says a malformed severity level raises on
every invocation, regardless of whether the checked value is in bounds;
but `interval` with the malformed level `bogus` and an in-bounds value
returns normally (logging nothing) instead of raising. -/
theorem C1_counterexample :
    interval "m" 0.5 ((0 : ℚ), (1 : ℚ)) "bogus" = Except.ok [] ∧
    "bogus" ∉ recognizedLevels := by
  constructor
  · rfl
  · decide

/-- C1 (amended): the assertion primitives never raise when the check
passes, regardless of the severity level; when the check fails they log
exactly one line and return if the level is recognized, and raise if and
only if the level is malformed.  (For `_assert` this is stated for the
five operators whose failure branch is reachable.) -/
theorem C1_raises_only_on_failed_check_with_bad_level (m : String) (v t lo hi : ℚ)
    (lv op : String) (arr : List ℚ) (a b : ℚ) :
    (¬(v < lo ∨ v > hi) → interval m v (lo, hi) lv = Except.ok []) ∧
    ((v < lo ∨ v > hi) →
      ((interval m v (lo, hi) lv).isOk = true ↔ lv ∈ recognizedLevels)) ∧
    (npMin arr = Except.ok a → npMax arr = Except.ok b →
      ((¬(a < lo ∨ b > hi) → array_interval m arr (lo, hi) lv = Except.ok []) ∧
       ((a < lo ∨ b > hi) →
         ((array_interval m arr (lo, hi) lv).isOk = true ↔ lv ∈ recognizedLevels)))) ∧
    (op ∈ handledOps →
      ((assertFailed op v t = false → _assert m v op t lv = Except.ok []) ∧
       (assertFailed op v t = true →
         ((_assert m v op t lv).isOk = true ↔ lv ∈ recognizedLevels)))) := by
  refine ⟨?_, ?_, ?_, ?_⟩
  · intro h
    simp [interval, h]
  · intro h
    by_cases hl : lv ∈ recognizedLevels
    · simp [interval, h, get_logger_of_mem hl, Except.isOk, Except.toBool, hl]
    · simp [interval, h, get_logger_error hl, Except.isOk, Except.toBool, hl]
  · intro hmin hmax
    constructor
    · intro h
      simp [array_interval, hmin, hmax, ok_bind, h]
    · intro h
      by_cases hl : lv ∈ recognizedLevels
      · simp [array_interval, hmin, hmax, ok_bind, h, get_logger_of_mem hl,
          Except.isOk, Except.toBool, hl]
      · simp [array_interval, hmin, hmax, ok_bind, h, get_logger_error hl,
          Except.isOk, Except.toBool, hl]
  · intro hop
    constructor
    · intro h
      simp only [handledOps, List.mem_cons, List.not_mem_nil, or_false] at hop
      rcases hop with rfl | rfl | rfl | rfl | rfl <;>
        · simp only [assertFailed] at h
          simp [_assert, assertOps, h]
          split <;> simp_all
    · intro h
      simp only [handledOps, List.mem_cons, List.not_mem_nil, or_false] at hop
      rcases hop with rfl | rfl | rfl | rfl | rfl <;>
        · simp only [assertFailed] at h
          by_cases hl : lv ∈ recognizedLevels
          · simp [_assert, assertOps, h, get_logger_of_mem hl, Except.isOk,
              Except.toBool, hl]
            split <;> simp_all [Except.isOk, Except.toBool]
          · simp [_assert, assertOps, h, get_logger_error hl, Except.isOk,
              Except.toBool, hl]
            split <;> simp_all [Except.isOk, Except.toBool]

/-- C1 witness: at concrete inputs, a failed `interval` check with the
recognized level `warn` returns normally, and a failed `_assert` check with
the malformed level `bogus` raises. -/
theorem C1_raises_witness :
    ((interval "m" 2 ((0 : ℚ), (1 : ℚ)) "warn").isOk = true ↔ "warn" ∈ recognizedLevels) ∧
    ((_assert "m" 2 "==" 0 "bogus").isOk = true ↔ "bogus" ∈ recognizedLevels) :=
  ⟨(C1_raises_only_on_failed_check_with_bad_level "m" 2 0 0 1 "warn" "==" [] 0 0).2.1
      (by decide),
   ((C1_raises_only_on_failed_check_with_bad_level "m" 2 0 0 1 "bogus" "==" [] 0 0).2.2.2
      (by decide)).2 (by decide)⟩

/-- C2: for every message, value, bounds pair and recognized level,
`interval` fails — emitting exactly one log line — iff the value is
strictly below the lower bound or strictly above the upper bound; values
exactly equal to an endpoint pass (inclusive bounds); and `array_interval`
applies the same inclusive rule to the array's minimum and maximum. -/
theorem C2_interval_inclusive_bounds (m : String) (v lo hi : ℚ) (lv : String)
    (arr : List ℚ) (a b : ℚ) (hlv : lv ∈ recognizedLevels) :
    (interval m v (lo, hi) lv = Except.ok [LogLine.intervalFail lv m v lo hi]
       ↔ (v < lo ∨ v > hi)) ∧
    (interval m v (lo, hi) lv = Except.ok [] ↔ (lo ≤ v ∧ v ≤ hi)) ∧
    (lo ≤ hi → interval m lo (lo, hi) lv = Except.ok [] ∧
               interval m hi (lo, hi) lv = Except.ok []) ∧
    (npMin arr = Except.ok a → npMax arr = Except.ok b →
      ((array_interval m arr (lo, hi) lv =
          Except.ok [LogLine.arrayIntervalFail lv m a b lo hi] ↔ (a < lo ∨ b > hi)) ∧
       (array_interval m arr (lo, hi) lv = Except.ok [] ↔ (lo ≤ a ∧ b ≤ hi)))) := by
  refine ⟨?_, ?_, ?_, ?_⟩
  · rw [interval_eq m v (lo, hi) hlv]
    by_cases hc : v < lo ∨ v > hi <;> simp [hc]
  · rw [interval_eq m v (lo, hi) hlv]
    by_cases hc : v < lo ∨ v > hi
    · simp only [hc, if_true]
      constructor
      · intro he
        exact absurd (Except.ok.inj he) (by simp)
      · intro hle
        rcases hc with hc | hc
        · exact absurd hle.1 (not_le.mpr hc)
        · exact absurd hle.2 (not_le.mpr hc)
    · simp only [hc, if_false]
      push_neg at hc
      simp [hc.1, hc.2]
  · intro hle
    constructor <;>
      · rw [interval_eq _ _ (lo, hi) hlv]
        simp [not_lt.mpr le_rfl, not_lt.mpr hle]
  · intro hmin hmax
    rw [array_interval_eq m (lo, hi) hmin hmax hlv]
    constructor
    · by_cases hc : a < lo ∨ b > hi <;> simp [hc]
    · by_cases hc : a < lo ∨ b > hi
      · simp only [hc, if_true]
        constructor
        · intro he
          exact absurd (Except.ok.inj he) (by simp)
        · intro hle
          rcases hc with hc | hc
          · exact absurd hle.1 (not_le.mpr hc)
          · exact absurd hle.2 (not_le.mpr hc)
      · simp only [hc, if_false]
        push_neg at hc
        simp [hc.1, hc.2]

/-- C2 witness: concrete instances — an endpoint value passes, and an
out-of-bounds array minimum produces the single expected warning line. -/
theorem C2_interval_witness :
    (interval "m" 1 ((0 : ℚ), (1 : ℚ)) "warn" = Except.ok [] ↔ ((0 : ℚ) ≤ 1 ∧ (1 : ℚ) ≤ 1)) ∧
    (array_interval "m" [-1, 2] ((0 : ℚ), (1 : ℚ)) "warn" =
        Except.ok [LogLine.arrayIntervalFail "warn" "m" (-1) 2 0 1] ↔ ((-1 : ℚ) < 0 ∨ (2 : ℚ) > 1)) :=
  ⟨(C2_interval_inclusive_bounds "m" 1 0 1 "warn" [] 0 0 (by decide)).2.1,
   ((C2_interval_inclusive_bounds "m" 0 0 1 "warn" [-1, 2] (-1) 2 (by decide)).2.2.2
      (by decide) (by decide)).1⟩

/-- C9: the second branch of `_assert` testing the `le` operator is dead
code — `_assert` agrees with `assertClean` (the same function with that
duplicate branch removed) on every input — and for the `le` operator the
failure condition is `value > target`. -/
theorem C9_assert_duplicate_branch_dead (m : String) (v t : ℚ) (op lv : String) :
    _assert m v op t lv = assertClean m v op t lv ∧
    _assert m v "<=" t "warn" =
      Except.ok (if v > t then [LogLine.assertFail "warn" m v ">" t] else []) := by
  constructor
  · by_cases h : op ∈ assertOps
    · simp only [assertOps, List.mem_cons, List.not_mem_nil, or_false] at h
      rcases h with rfl | rfl | rfl | rfl | rfl | rfl <;> rfl
    · simp [_assert, assertClean, h]
  · have h := @assert_eq m v t "<=" "warn" (by decide) (by decide)
    rw [h]
    by_cases hc : v > t <;> simp [assertFailed, oppoOp, hc]

/-- C10: `array_interval` is only well-defined on nonempty arrays — it
takes the minimum and maximum of the array before deciding pass or fail.
On a nonempty array the min/max evaluation is total (returning elements
bounding the array below/above) and, for a recognized level, the call
never errors; on the empty array it always raises. -/
theorem C10_array_interval_nonempty_precondition (m : String) (arr : List ℚ)
    (lim : ℚ × ℚ) (lv : String) (h : arr ≠ []) (hlv : lv ∈ recognizedLevels) :
    (npMin arr = Except.ok (npMinD arr) ∧ npMax arr = Except.ok (npMaxD arr)) ∧
    npMinD arr ∈ arr ∧ npMaxD arr ∈ arr ∧
    (∀ p ∈ arr, npMinD arr ≤ p ∧ p ≤ npMaxD arr) ∧
    (∃ logs, array_interval m arr lim lv = Except.ok logs) ∧
    (∀ lim2 lv2, array_interval m [] lim2 lv2 =
      Except.error "zero-size array to reduction operation minimum") := by
  have hmin := npMin_ok_of_ne h
  have hmax := npMax_ok_of_ne h
  have hsmin := npMin_spec hmin
  have hsmax := npMax_spec hmax
  refine ⟨⟨hmin, hmax⟩, hsmin.1, hsmax.1, ?_, ?_, ?_⟩
  · intro p hp
    exact ⟨hsmin.2 p hp, hsmax.2 p hp⟩
  · rw [array_interval_eq m lim hmin hmax hlv]
    exact ⟨_, rfl⟩
  · intro lim2 lv2
    rfl

/-- C10 witness: a concrete nonempty array with the `warn` level. -/
theorem C10_array_interval_witness :
    (npMin [3, 1, 2] = Except.ok (npMinD [3, 1, 2]) ∧
     npMax [3, 1, 2] = Except.ok (npMaxD [3, 1, 2])) ∧
    npMinD [3, 1, 2] ∈ ([3, 1, 2] : List ℚ) ∧ npMaxD [3, 1, 2] ∈ ([3, 1, 2] : List ℚ) ∧
    (∀ p ∈ ([3, 1, 2] : List ℚ), npMinD [3, 1, 2] ≤ p ∧ p ≤ npMaxD [3, 1, 2]) ∧
    (∃ logs, array_interval "m" [3, 1, 2] (0, 10) "warn" = Except.ok logs) ∧
    (∀ lim2 lv2, array_interval "m" [] lim2 lv2 =
      Except.error "zero-size array to reduction operation minimum") :=
  C10_array_interval_nonempty_precondition "m" [3, 1, 2] (0, 10) "warn"
    (by decide) (by decide)

end Integrity

namespace Integrity

/-! ### C7: duplicate identifiers, C5: era counts per region -/

/-- C7: `ids(data)` emits no warning when the dataset has no duplicate
identifiers, and for exactly k > 0 duplicates (row count minus
distinct-identifier count) it emits exactly one warning whose embedded
value equals k. -/
theorem C7_ids_duplicate_count (data : Dataset) :
    (data.ID.length = (npUnique data.ID).length →
       ids data = Except.ok [LogLine.info "IDS"]) ∧
    (∀ k : ℕ, 0 < k → data.ID.length = (npUnique data.ID).length + k →
       ids data = Except.ok [LogLine.info "IDS",
         LogLine.assertFail "warn" "duplicate ids" (k : ℚ) "!=" 0]) := by
  constructor
  · intro h
    have hnum : ((data.ID.length : ℚ) - ((npUnique data.ID).length : ℚ)) = 0 := by
      rw [h]
      ring
    simp [ids, ok_bind, assert_eqq, hnum]
  · intro k hk h
    have hnum : ((data.ID.length : ℚ) - ((npUnique data.ID).length : ℚ)) = (k : ℚ) := by
      rw [h]
      push_cast
      ring
    have hkq : (k : ℚ) ≠ 0 := Nat.cast_ne_zero.mpr hk.ne'
    simp [ids, ok_bind, assert_eqq, hnum, hkq]

/-- C7 witness: a two-row dataset with distinct identifiers, and a
three-row dataset with one duplicated identifier. -/
theorem C7_ids_witness :
    ids { ID := ["a", "b"], era := [], region := [], x := [], y := [],
          era_feature_iter := [], era_iter := [], nonmissing_label_index := [] } =
      Except.ok [LogLine.info "IDS"] ∧
    ids { ID := ["a", "a", "b"], era := [], region := [], x := [], y := [],
          era_feature_iter := [], era_iter := [], nonmissing_label_index := [] } =
      Except.ok [LogLine.info "IDS",
        LogLine.assertFail "warn" "duplicate ids" ((1 : ℕ) : ℚ) "!=" 0] :=
  ⟨(C7_ids_duplicate_count _).1 (by decide),
   (C7_ids_duplicate_count _).2 1 (by decide) (by decide)⟩

/-- C5: `eras(data)` checks, for each region in the fixed mapping
{train 85, validation 12, test 1, live 1}, that the distinct era count of
that region equals the mapped value.  When every region matches it emits
zero warnings, and when exactly one region is off by one it emits exactly
one warning whose message names that region. -/
theorem C5_eras_exact_counts (data : Dataset) :
    ((∀ p ∈ eraTarget, eraCount data p.1 = p.2) →
       eras data = Except.ok [LogLine.info "ERAS"]) ∧
    (∀ r0 t0, (r0, t0) ∈ eraTarget →
       (∀ p ∈ eraTarget, p.1 ≠ r0 → eraCount data p.1 = p.2) →
       (eraCount data r0 = t0 + 1 ∨ eraCount data r0 + 1 = t0) →
       eras data = Except.ok [LogLine.info "ERAS",
         LogLine.assertFail "warn" ("number of eras in " ++ r0)
           ((eraCount data r0 : ℕ) : ℚ) "!=" ((t0 : ℕ) : ℚ)]) := by
  constructor
  · intro h
    have h1 := h ("train", 85) (by decide)
    have h2 := h ("validation", 12) (by decide)
    have h3 := h ("test", 1) (by decide)
    have h4 := h ("live", 1) (by decide)
    simp only at h1 h2 h3 h4
    simp [eras, eraTarget, List.foldlM, ok_bind, assert_eqq, h1, h2, h3, h4]
  · intro r0 t0 hmem hothers hoff
    have hne : eraCount data r0 ≠ t0 := by omega
    simp only [eraTarget, List.mem_cons, List.not_mem_nil, or_false,
      Prod.mk.injEq] at hmem
    rcases hmem with ⟨rfl, rfl⟩ | ⟨rfl, rfl⟩ | ⟨rfl, rfl⟩ | ⟨rfl, rfl⟩
    · have h2 := hothers ("validation", 12) (by decide) (by decide)
      have h3 := hothers ("test", 1) (by decide) (by decide)
      have h4 := hothers ("live", 1) (by decide) (by decide)
      have hq : ¬((eraCount data "train" : ℚ) = (85 : ℚ)) := by
        exact_mod_cast hne
      simp [eras, eraTarget, List.foldlM, ok_bind, assert_eqq, h2, h3, h4, hne, hq]
    · have h1 := hothers ("train", 85) (by decide) (by decide)
      have h3 := hothers ("test", 1) (by decide) (by decide)
      have h4 := hothers ("live", 1) (by decide) (by decide)
      have hq : ¬((eraCount data "validation" : ℚ) = (12 : ℚ)) := by
        exact_mod_cast hne
      simp [eras, eraTarget, List.foldlM, ok_bind, assert_eqq, h1, h3, h4, hne, hq]
    · have h1 := hothers ("train", 85) (by decide) (by decide)
      have h2 := hothers ("validation", 12) (by decide) (by decide)
      have h4 := hothers ("live", 1) (by decide) (by decide)
      have hq : ¬((eraCount data "test" : ℚ) = (1 : ℚ)) := by
        exact_mod_cast hne
      simp [eras, eraTarget, List.foldlM, ok_bind, assert_eqq, h1, h2, h4, hne, hq]
    · have h1 := hothers ("train", 85) (by decide) (by decide)
      have h2 := hothers ("validation", 12) (by decide) (by decide)
      have h3 := hothers ("test", 1) (by decide) (by decide)
      have hq : ¬((eraCount data "live" : ℚ) = (1 : ℚ)) := by
        exact_mod_cast hne
      simp [eras, eraTarget, List.foldlM, ok_bind, assert_eqq, h1, h2, h3, hne, hq]

/-- The columns of a small dataset whose per-region distinct era counts
match the expected mapping exactly: 85 train eras, 12 validation eras, one
test era, one live era, one row per era. -/
def eraColumnA : List String :=
  ((List.range 85).map (fun i => "t" ++ toString i)) ++
  ((List.range 12).map (fun i => "v" ++ toString i)) ++ ["s0", "l0"]

def regionColumnA : List String :=
  (List.replicate 85 "train") ++ (List.replicate 12 "validation") ++ ["test", "live"]

def dataErasA : Dataset :=
  { ID := [], era := eraColumnA, region := regionColumnA, x := [], y := [],
    era_feature_iter := [], era_iter := [], nonmissing_label_index := [] }

/-- The same dataset with one extra distinct train era (86 instead of 85). -/
def dataErasB : Dataset :=
  { ID := [], era := "t85" :: eraColumnA, region := "train" :: regionColumnA,
    x := [], y := [], era_feature_iter := [], era_iter := [],
    nonmissing_label_index := [] }

set_option maxRecDepth 100000 in
/-- C5 witness: the matching dataset produces only the section marker; the
dataset whose train region has 86 distinct eras produces exactly one
warning naming the train region. -/
theorem C5_eras_witness :
    eras dataErasA = Except.ok [LogLine.info "ERAS"] ∧
    eras dataErasB = Except.ok [LogLine.info "ERAS",
      LogLine.assertFail "warn" ("number of eras in " ++ "train")
        ((86 : ℕ) : ℚ) "!=" ((85 : ℕ) : ℚ)] := by
  constructor
  · exact (C5_eras_exact_counts dataErasA).1 (by decide)
  · have h := (C5_eras_exact_counts dataErasB).2 "train" 85 (by decide)
      (by decide) (Or.inl (by decide))
    have hc : eraCount dataErasB "train" = 86 := by decide
    rw [hc] at h
    exact h

end Integrity

namespace Integrity

/-! ### Closed forms of the check functions (derived output shapes) -/

/-- The output of a single `interval` check at level `warn`. -/
def ivLine (m : String) (v lo hi : ℚ) : List LogLine :=
  if v < lo ∨ v > hi then [LogLine.intervalFail "warn" m v lo hi] else []

/-- The output of a single `array_interval` check at level `warn` on a
nonempty array. -/
def aivLine (m : String) (a b lo hi : ℚ) : List LogLine :=
  if a < lo ∨ b > hi then [LogLine.arrayIntervalFail "warn" m a b lo hi] else []

/-- The output of a single equality `_assert` check at level `warn`. -/
def eqLine (m : String) (v t : ℚ) : List LogLine :=
  if v = t then [] else [LogLine.assertFail "warn" m v "!=" t]

theorem interval_warn (m : String) (v lo hi : ℚ) :
    interval m v (lo, hi) "warn" = Except.ok (ivLine m v lo hi) := by
  rw [interval_eq m v (lo, hi) (by decide)]
  rfl

theorem array_interval_warn (m : String) {arr : List ℚ} (lo hi : ℚ) (h : arr ≠ []) :
    array_interval m arr (lo, hi) "warn" =
      Except.ok (aivLine m (npMinD arr) (npMaxD arr) lo hi) := by
  rw [array_interval_eq m (lo, hi) (npMin_ok_of_ne h) (npMax_ok_of_ne h) (by decide)]
  rfl

theorem assert_warn_eq (m : String) (v t : ℚ) :
    _assert m v "==" t "warn" = Except.ok (eqLine m v t) := by
  rw [assert_eqq]
  rfl

theorem ivLine_pass {v lo hi : ℚ} (h1 : lo ≤ v) (h2 : v ≤ hi) (m : String) :
    ivLine m v lo hi = [] := by
  simp [ivLine, not_lt.mpr h1, not_lt.mpr h2]

theorem aivLine_pass {a b lo hi : ℚ} (h1 : lo ≤ a) (h2 : b ≤ hi) (m : String) :
    aivLine m a b lo hi = [] := by
  simp [aivLine, not_lt.mpr h1, not_lt.mpr h2]

theorem eqLine_pass {v t : ℚ} (h : v = t) (m : String) : eqLine m v t = [] := by
  simp [eqLine, h]

theorem ids_eq (data : Dataset) :
    ids data = Except.ok (LogLine.info "IDS" ::
      eqLine "duplicate ids"
        ((data.ID.length : ℚ) - ((npUnique data.ID).length : ℚ)) 0) := by
  simp [ids, assert_warn_eq, ok_bind]

theorem eras_eq (data : Dataset) :
    eras data = Except.ok (LogLine.info "ERAS" ::
      (eqLine "number of eras in train" ((eraCount data "train" : ℕ) : ℚ) 85 ++
       eqLine "number of eras in validation" ((eraCount data "validation" : ℕ) : ℚ) 12 ++
       eqLine "number of eras in test" ((eraCount data "test" : ℕ) : ℚ) 1 ++
       eqLine "number of eras in live" ((eraCount data "live" : ℕ) : ℚ) 1)) := by
  simp [eras, eraTarget, List.foldlM, ok_bind, assert_warn_eq]

/-- The per-era label mean of the body of the `era_iter` loop in `labels`. -/
def eraMean (yall : List ℚ) (p : String × List ℕ) : ℚ :=
  listMean (indexSelect yall p.2)

/-- The log lines of one iteration of the `era_iter` loop in `labels`. -/
def eraBlock (yall : List ℚ) (p : String × List ℕ) : List LogLine :=
  ivLine ("mean of labels in " ++ ljust p.1 6) (eraMean yall p) 0.499 0.501 ++
  (if p.1 = "eraX" then
     ivLine ("num  of labels in " ++ ljust p.1 6) ((indexSelect yall p.2).length : ℚ)
       270000 280000
   else
     ivLine ("num  of labels in " ++ ljust p.1 6) ((indexSelect yall p.2).length : ℚ)
       5920 6800)

theorem labelsEra_eq (yall : List ℚ) (p : String × List ℕ) :
    labelsEra yall p = Except.ok (eraBlock yall p, eraMean yall p) := by
  by_cases h : p.1 = "eraX" <;>
    simp [labelsEra, interval_warn, ok_bind, eraBlock, eraMean, h]

theorem map_ok {α β : Type} (f : α → β) (a : α) :
    (f <$> (Except.ok a : Except String α)) = Except.ok (f a) := rfl

theorem pure_ok {α : Type} (a : α) : (pure a : Except String α) = Except.ok a := rfl

theorem labels_loop (yall : List ℚ) (l : List (String × List ℕ)) :
    ∀ acc : List LogLine × List ℚ,
      l.foldlM (fun (acc : List LogLine × List ℚ) p =>
          (fun r => (acc.1 ++ r.1, acc.2 ++ [r.2])) <$> labelsEra yall p) acc =
        Except.ok (acc.1 ++ (l.map (eraBlock yall)).flatten,
                   acc.2 ++ l.map (eraMean yall)) := by
  induction l with
  | nil => intro acc; simp [pure_ok]
  | cons p ps ih =>
    intro acc
    rw [List.foldlM_cons, labelsEra_eq, map_ok, ok_bind, ih]
    simp

theorem labels_eq (data : Dataset) :
    labels data = Except.ok (LogLine.info "LABELS" ::
      (eqLine "number of non 0, 1 labels"
         (((indexSelect data.y data.nonmissing_label_index).length : ℚ) -
           (((indexSelect data.y data.nonmissing_label_index).countP
              (fun v => decide (v = 0) || decide (v = 1)) : ℕ) : ℚ)) 0 ++
       (data.era_iter.map (eraBlock data.y)).flatten ++
       ivLine "fraction of eras with label mean less than half"
         (boolMean ((data.era_iter.map (eraMean data.y)).map (fun v => decide (v < 0.5))))
         0.4 0.6)) := by
  simp [labels, assert_warn_eq, ok_bind, labels_loop, interval_warn, List.map_map]

end Integrity

namespace Integrity

theorem regions_clean (data : Dataset)
    (h : ((npUnique data.region).all (fun r => regionTarget.contains r) ∧
          regionTarget.all (fun r => (npUnique data.region).contains r))) :
    regions data = [LogLine.info "REGIONS"] := by
  simp only [regions]
  rw [if_pos h]

theorem nonfinite_count_zero (x : List (List ℚ)) :
    (x.map (fun row => row.countP (fun v => ! finiteQ v))).sum = 0 := by
  induction x with
  | nil => rfl
  | cons r rs ih => simp [finiteQ, ih]

/-- The log lines of one iteration of the `era_feature_iter` loop in
`features`. -/
def momentsBlock (sqrtF : ℚ → ℚ) (t : String × ℕ × List ℚ) : List LogLine :=
  let m := listMean t.2.2
  let sd := sqrtF (listMean (t.2.2.map (fun v => (v - m) ^ 2)))
  aivLine ("range of feature " ++ fmt2 t.2.1 ++ " in " ++ ljust t.1 6)
    (npMinD t.2.2) (npMaxD t.2.2) 0 1 ++
  ivLine ("mean  of feature " ++ fmt2 t.2.1 ++ " in " ++ ljust t.1 6) m 0.45 0.551 ++
  ivLine ("std   of feature " ++ fmt2 t.2.1 ++ " in " ++ ljust t.1 6) sd 0.09 0.15 ++
  ivLine ("skewn of feature " ++ fmt2 t.2.1 ++ " in " ++ ljust t.1 6)
    (listMean (t.2.2.map (fun v => (v - m) ^ 3)) / sd ^ 3) (-0.44) 0.44 ++
  ivLine ("kurto of feature " ++ fmt2 t.2.1 ++ " in " ++ ljust t.1 6)
    (listMean (t.2.2.map (fun v => (v - m) ^ 4)) / sd ^ 4) 2.45 3.58

theorem featureMoments_eq (sqrtF : ℚ → ℚ) (t : String × ℕ × List ℚ)
    (h : t.2.2 ≠ []) :
    featureMoments sqrtF t = Except.ok (momentsBlock sqrtF t) := by
  simp [featureMoments, momentsBlock, array_interval_warn _ _ _ h, interval_warn, ok_bind]

theorem features_loop (sqrtF : ℚ → ℚ) (l : List (String × ℕ × List ℚ))
    (h : ∀ t ∈ l, t.2.2 ≠ []) :
    ∀ acc : List LogLine,
      l.foldlM (fun (acc : List LogLine) t =>
          (fun r => acc ++ r) <$> featureMoments sqrtF t) acc =
        Except.ok (acc ++ (l.map (momentsBlock sqrtF)).flatten) := by
  induction l with
  | nil => intro acc; simp [pure_ok]
  | cons t ts ih =>
    intro acc
    rw [List.foldlM_cons, featureMoments_eq sqrtF t (h t (List.mem_cons_self _ _)),
      map_ok, ok_bind, ih (fun u hu => h u (List.mem_cons.mpr (Or.inr hu)))]
    simp

theorem features_eq (sqrtF : ℚ → ℚ) (corrcoef : List (List ℚ) → List (List ℚ))
    (data : Dataset) (hx : ∀ t ∈ data.era_feature_iter, t.2.2 ≠ [])
    (hcorr : (upper_triangle (corrcoef data.x.transpose)).map (fun v => |v|) ≠ []) :
    features sqrtF corrcoef data = Except.ok (LogLine.info "FEATURES" ::
      (ivLine "mean abs corr of features"
         (listMean ((upper_triangle (corrcoef data.x.transpose)).map (fun v => |v|)))
         0.18 0.22 ++
       ivLine "max  abs corr of features"
         (npMaxD ((upper_triangle (corrcoef data.x.transpose)).map (fun v => |v|)))
         0.72 0.76 ++
       (data.era_feature_iter.map (momentsBlock sqrtF)).flatten)) := by
  have hz := nonfinite_count_zero data.x
  simp [features, assert_warn_eq, ok_bind, interval_warn, hz,
    npMax_ok_of_ne hcorr, features_loop sqrtF data.era_feature_iter hx, eqLine]

/-- The full log of `predictions(data)` when the classifier fit succeeds
and the train/test/live prediction arrays are nonempty. -/
def predLog (log_loss : List ℚ → List ℚ → ℚ) (log2 : ℚ) (data : Dataset)
    (clf : List (List ℚ) → List ℚ) : List LogLine :=
  let idx := data.region.map (fun s => s == "train")
  let ytrain := maskSelect data.y idx
  let yhat_train := clf (maskSelect data.x idx)
  let loglosses := logloss_by_era log_loss (maskSelect data.era idx) ytrain yhat_train
  let vp := calc_yhat "validation" clf data
  let loglossesv := logloss_by_era log_loss
    (maskSelect data.era (data.region.map (fun s => s == "validation"))) vp.1 vp.2
  let tp := calc_yhat "test" clf data
  let lp := calc_yhat "live" clf data
  LogLine.info "PREDICTIONS" ::
    (ivLine "train logloss" (log_loss ytrain yhat_train) 0.691 0.693 ++
     ivLine "train consistency"
       (boolMean (loglosses.map (fun v => decide (v < log2)))) 0.57 0.84 ++
     ivLine "validation logloss" (log_loss vp.1 vp.2) 0.691 0.693 ++
     ivLine "validation consistency"
       (boolMean (loglossesv.map (fun v => decide (v < log2)))) 0.5 0.84 ++
     aivLine "predictions in test region" (npMinD tp.2) (npMaxD tp.2)
       (0.99 * npMinD yhat_train) (1.01 * npMaxD yhat_train) ++
     aivLine "predictions in live region" (npMinD lp.2) (npMaxD lp.2)
       (0.99 * npMinD yhat_train) (1.01 * npMaxD yhat_train))

theorem predictions_eq (fit : List (List ℚ) → List ℚ → Except String (List (List ℚ) → List ℚ))
    (log_loss : List ℚ → List ℚ → ℚ) (log2 : ℚ) (data : Dataset)
    (clf : List (List ℚ) → List ℚ)
    (hfit : fit (maskSelect data.x (data.region.map (fun s => s == "train")))
        (maskSelect data.y (data.region.map (fun s => s == "train"))) = Except.ok clf)
    (htr : clf (maskSelect data.x (data.region.map (fun s => s == "train"))) ≠ [])
    (htest : (calc_yhat "test" clf data).2 ≠ [])
    (hlive : (calc_yhat "live" clf data).2 ≠ []) :
    predictions fit log_loss log2 data =
      Except.ok (predLog log_loss log2 data clf) := by
  simp [predictions, predLog, hfit, ok_bind, interval_warn,
    npMin_ok_of_ne htr, npMax_ok_of_ne htr,
    array_interval_warn _ _ _ htest, array_interval_warn _ _ _ hlive]

end Integrity

namespace Integrity

/-! ### C6: per-era log-loss grouping and consistency -/

theorem maskSelect_cons {α : Type} (x : α) (xs : List α) (b : Bool) (bs : List Bool) :
    maskSelect (x :: xs) (b :: bs) = (if b then [x] else []) ++ maskSelect xs bs := by
  cases b <;> simp [maskSelect, List.filter_cons]

theorem maskSelect_map (f : String → Bool) :
    ∀ (era : List String) (xs : List ℚ),
      maskSelect xs (era.map f) =
        ((era.zip xs).filter (fun p => f p.1)).map (fun p => p.2) := by
  intro era
  induction era with
  | nil => intro xs; cases xs <;> rfl
  | cons e es ih =>
    intro xs
    cases xs with
    | nil => rfl
    | cons x xr =>
      rw [List.map_cons, maskSelect_cons, List.zip_cons_cons, List.filter_cons, ih]
      by_cases hf : f e <;> simp [hf]

theorem insertSorted_cons (b c : String) (cs : List String) :
    insertSorted b (c :: cs) =
      if strLe b c then b :: c :: cs else c :: insertSorted b cs := rfl

theorem mem_insertSorted (a b : String) :
    ∀ l : List String, a ∈ insertSorted b l ↔ a = b ∨ a ∈ l := by
  intro l
  induction l with
  | nil => simp [insertSorted]
  | cons c cs ih =>
    rw [insertSorted_cons]
    by_cases h : strLe b c
    · simp [h]
    · rw [if_neg h, List.mem_cons, ih, List.mem_cons]
      tauto

theorem nodup_insertSorted (b : String) :
    ∀ l : List String, b ∉ l → l.Nodup → (insertSorted b l).Nodup := by
  intro l
  induction l with
  | nil => intro _ _; simp [insertSorted]
  | cons c cs ih =>
    intro hb hn
    by_cases h : strLe b c
    · simp only [insertSorted, h, if_true]
      exact List.Nodup.cons hb hn
    · simp only [insertSorted, h, if_false]
      refine List.Nodup.cons ?_ (ih (fun hm => hb (List.mem_cons.mpr (Or.inr hm)))
        (List.Nodup.of_cons hn))
      intro hc
      rcases (mem_insertSorted c b cs).mp hc with hcb | hcs
      · exact hb (List.mem_cons.mpr (Or.inl hcb.symm))
      · exact (List.nodup_cons.mp hn).1 hcs

theorem mem_foldr_insertSorted (a : String) :
    ∀ l : List String, a ∈ l.foldr insertSorted [] ↔ a ∈ l := by
  intro l
  induction l with
  | nil => simp
  | cons b bs ih => simp [List.foldr_cons, mem_insertSorted, ih]

theorem nodup_foldr_insertSorted :
    ∀ l : List String, l.Nodup → (l.foldr insertSorted []).Nodup := by
  intro l
  induction l with
  | nil => intro _; simp
  | cons b bs ih =>
    intro hn
    rw [List.foldr_cons]
    refine nodup_insertSorted b _ ?_ (ih (List.Nodup.of_cons hn))
    intro hm
    exact (List.nodup_cons.mp hn).1 ((mem_foldr_insertSorted b bs).mp hm)

theorem npUnique_nodup (l : List String) : (npUnique l).Nodup :=
  nodup_foldr_insertSorted l.dedup l.nodup_dedup

theorem mem_npUnique (a : String) (l : List String) : a ∈ npUnique l ↔ a ∈ l :=
  (mem_foldr_insertSorted a l.dedup).trans (List.mem_dedup)

/-- C6: `logloss_by_era` groups the region's rows by era label — producing,
for each distinct era value, the external `log_loss` applied to exactly the
label/prediction entries of the rows carrying that era label — with one
scalar per distinct era value (the distinct values, each exactly once);
and the consistency value used in `predictions` (the mean of the boolean
array `loglosses < c`, where `c` models the float `np.log(2)`) equals the
number of per-era scalars strictly below `c` divided by the number of
distinct eras. -/
theorem C6_per_era_logloss_and_consistency (ll : List ℚ → List ℚ → ℚ)
    (era : List String) (y yhat : List ℚ) (c : ℚ) :
    logloss_by_era ll era y yhat =
      (npUnique era).map (fun e =>
        ll (((era.zip y).filter (fun p => p.1 == e)).map (fun p => p.2))
           (((era.zip yhat).filter (fun p => p.1 == e)).map (fun p => p.2))) ∧
    (logloss_by_era ll era y yhat).length = (npUnique era).length ∧
    (npUnique era).Nodup ∧
    (∀ e, e ∈ npUnique era ↔ e ∈ era) ∧
    boolMean ((logloss_by_era ll era y yhat).map (fun v => decide (v < c))) =
      (((logloss_by_era ll era y yhat).countP (fun v => decide (v < c)) : ℕ) : ℚ) /
        (((npUnique era).length : ℕ) : ℚ) := by
  refine ⟨?_, ?_, npUnique_nodup era, fun e => mem_npUnique e era, ?_⟩
  · simp only [logloss_by_era, maskSelect_map]
  · simp [logloss_by_era]
  · simp [boolMean, List.countP_map, Function.comp, logloss_by_era]

end Integrity

namespace Integrity

/-! ### C3: the test/live prediction-band check -/

/-- Recognizer for an `array_interval` failure line with the given message
(the shape of the band-check warnings in `predictions`). -/
def isBandLine (msg : String) (l : LogLine) : Bool :=
  match l with
  | LogLine.arrayIntervalFail _ m _ _ _ _ => m == msg
  | _ => false

theorem countP_ivLine (msg m : String) (v lo hi : ℚ) :
    (ivLine m v lo hi).countP (isBandLine msg) = 0 := by
  unfold ivLine
  split <;> simp [isBandLine]

theorem countP_aivLine_ne (msg m : String) (a b lo hi : ℚ) (h : (m == msg) = false) :
    (aivLine m a b lo hi).countP (isBandLine msg) = 0 := by
  unfold aivLine
  split <;> simp [isBandLine, h]

theorem countP_aivLine_self (m : String) (a b lo hi : ℚ) :
    (aivLine m a b lo hi).countP (isBandLine m) =
      if a < lo ∨ b > hi then 1 else 0 := by
  unfold aivLine
  split <;> simp_all [isBandLine]

theorem bandFail_iff {l : List ℚ} (h : l ≠ []) (lo hi : ℚ) :
    (npMinD l < lo ∨ npMaxD l > hi) ↔ ∃ p ∈ l, p < lo ∨ p > hi := by
  have hmin := npMin_spec (npMin_ok_of_ne h)
  have hmax := npMax_spec (npMax_ok_of_ne h)
  constructor
  · rintro (hc | hc)
    · exact ⟨npMinD l, hmin.1, Or.inl hc⟩
    · exact ⟨npMaxD l, hmax.1, Or.inr hc⟩
  · rintro ⟨p, hp, hc | hc⟩
    · exact Or.inl (lt_of_le_of_lt (hmin.2 p hp) hc)
    · exact Or.inr (lt_of_lt_of_le hc (hmax.2 p hp))

theorem count_zero_iff (L : List ℚ) (lo hi : ℚ) :
    ((if ∃ p ∈ L, p < lo ∨ p > hi then (1 : ℕ) else 0) = 0) ↔
      ∀ p ∈ L, lo ≤ p ∧ p ≤ hi := by
  by_cases hc : ∃ p ∈ L, p < lo ∨ p > hi
  · simp only [hc, if_true]
    constructor
    · intro h
      exact absurd h one_ne_zero
    · intro h1
      obtain ⟨p, hp, hcc⟩ := hc
      rcases hcc with hcc | hcc
      · exact absurd (h1 p hp).1 (not_le.mpr hcc)
      · exact absurd (h1 p hp).2 (not_le.mpr hcc)
  · simp only [hc, if_false]
    push_neg at hc
    constructor
    · intro _ p hp
      exact hc p hp
    · intro _
      trivial

/-- C3: when the fit succeeds and the train/test/live prediction arrays are
nonempty, `predictions` completes, and for each of the test and live
regions it emits exactly one band warning iff some predicted probability of
that region falls outside the band `[0.99 * min yhat_train, 1.01 * max
yhat_train]` derived from the train-region predicted-probability range
(equivalently: it emits none iff every predicted probability of that region
lies within the band). -/
theorem C3_prediction_band (fit : List (List ℚ) → List ℚ → Except String (List (List ℚ) → List ℚ))
    (log_loss : List ℚ → List ℚ → ℚ) (log2 : ℚ) (data : Dataset)
    (clf : List (List ℚ) → List ℚ)
    (hfit : fit (maskSelect data.x (data.region.map (fun s => s == "train")))
        (maskSelect data.y (data.region.map (fun s => s == "train"))) = Except.ok clf)
    (htr : clf (maskSelect data.x (data.region.map (fun s => s == "train"))) ≠ [])
    (htest : (calc_yhat "test" clf data).2 ≠ [])
    (hlive : (calc_yhat "live" clf data).2 ≠ []) :
    ∃ logs, predictions fit log_loss log2 data = Except.ok logs ∧
      (logs.countP (isBandLine "predictions in test region") =
        if ∃ p ∈ (calc_yhat "test" clf data).2,
            p < 0.99 * npMinD (clf (maskSelect data.x (data.region.map (fun s => s == "train")))) ∨
            p > 1.01 * npMaxD (clf (maskSelect data.x (data.region.map (fun s => s == "train"))))
         then 1 else 0) ∧
      (logs.countP (isBandLine "predictions in test region") = 0 ↔
        ∀ p ∈ (calc_yhat "test" clf data).2,
          0.99 * npMinD (clf (maskSelect data.x (data.region.map (fun s => s == "train")))) ≤ p ∧
          p ≤ 1.01 * npMaxD (clf (maskSelect data.x (data.region.map (fun s => s == "train"))))) ∧
      (logs.countP (isBandLine "predictions in live region") =
        if ∃ p ∈ (calc_yhat "live" clf data).2,
            p < 0.99 * npMinD (clf (maskSelect data.x (data.region.map (fun s => s == "train")))) ∨
            p > 1.01 * npMaxD (clf (maskSelect data.x (data.region.map (fun s => s == "train"))))
         then 1 else 0) ∧
      (logs.countP (isBandLine "predictions in live region") = 0 ↔
        ∀ p ∈ (calc_yhat "live" clf data).2,
          0.99 * npMinD (clf (maskSelect data.x (data.region.map (fun s => s == "train")))) ≤ p ∧
          p ≤ 1.01 * npMaxD (clf (maskSelect data.x (data.region.map (fun s => s == "train"))))) := by
  have hTL : ∀ a b lo hi : ℚ,
      (aivLine "predictions in live region" a b lo hi).countP
        (isBandLine "predictions in test region") = 0 :=
    fun a b lo hi => countP_aivLine_ne _ _ a b lo hi (by decide)
  have hLT : ∀ a b lo hi : ℚ,
      (aivLine "predictions in test region" a b lo hi).countP
        (isBandLine "predictions in live region") = 0 :=
    fun a b lo hi => countP_aivLine_ne _ _ a b lo hi (by decide)
  have hinfo : ∀ msg m, isBandLine msg (LogLine.info m) = false := fun _ _ => rfl
  have htc : (predLog log_loss log2 data clf).countP
      (isBandLine "predictions in test region") =
      if npMinD (calc_yhat "test" clf data).2 <
           0.99 * npMinD (clf (maskSelect data.x (data.region.map (fun s => s == "train")))) ∨
         npMaxD (calc_yhat "test" clf data).2 >
           1.01 * npMaxD (clf (maskSelect data.x (data.region.map (fun s => s == "train"))))
      then 1 else 0 := by
    simp [predLog, List.countP_cons, List.countP_append, countP_ivLine,
      hTL, countP_aivLine_self, hinfo]
  have hlc : (predLog log_loss log2 data clf).countP
      (isBandLine "predictions in live region") =
      if npMinD (calc_yhat "live" clf data).2 <
           0.99 * npMinD (clf (maskSelect data.x (data.region.map (fun s => s == "train")))) ∨
         npMaxD (calc_yhat "live" clf data).2 >
           1.01 * npMaxD (clf (maskSelect data.x (data.region.map (fun s => s == "train"))))
      then 1 else 0 := by
    simp [predLog, List.countP_cons, List.countP_append, countP_ivLine,
      hLT, countP_aivLine_self, hinfo]
  refine ⟨predLog log_loss log2 data clf,
    predictions_eq fit log_loss log2 data clf hfit htr htest hlive, ?_, ?_, ?_, ?_⟩
  · rw [htc, if_congr (bandFail_iff htest _ _) rfl rfl]
  · rw [htc, if_congr (bandFail_iff htest _ _) rfl rfl]
    exact count_zero_iff _ _ _
  · rw [hlc, if_congr (bandFail_iff hlive _ _) rfl rfl]
  · rw [hlc, if_congr (bandFail_iff hlive _ _) rfl rfl]
    exact count_zero_iff _ _ _

end Integrity

namespace Integrity

/-- A concrete classifier for witnesses: constant probability one half. -/
def clfW : List (List ℚ) → List ℚ := fun rows => rows.map (fun _ => 1 / 2)

/-- A concrete fit collaborator for witnesses: always returns `clfW`. -/
def fitW : List (List ℚ) → List ℚ → Except String (List (List ℚ) → List ℚ) :=
  fun _ _ => Except.ok clfW

/-- A small four-row dataset, one row per region. -/
def dataW3 : Dataset :=
  { ID := ["i1", "i2", "i3", "i4"], era := ["a", "b", "c", "d"],
    region := ["train", "validation", "test", "live"],
    x := [[0], [0], [0], [0]], y := [1, 0, 1, 0],
    era_feature_iter := [], era_iter := [], nonmissing_label_index := [] }

/-- C3 witness: the band check at a concrete dataset, classifier and
log-loss collaborator. -/
theorem C3_prediction_band_witness :
    ∃ logs, predictions fitW (fun _ _ => 0) 0 dataW3 = Except.ok logs ∧
      (logs.countP (isBandLine "predictions in test region") =
        if ∃ p ∈ (calc_yhat "test" clfW dataW3).2,
            p < 0.99 * npMinD (clfW (maskSelect dataW3.x (dataW3.region.map (fun s => s == "train")))) ∨
            p > 1.01 * npMaxD (clfW (maskSelect dataW3.x (dataW3.region.map (fun s => s == "train"))))
         then 1 else 0) ∧
      (logs.countP (isBandLine "predictions in test region") = 0 ↔
        ∀ p ∈ (calc_yhat "test" clfW dataW3).2,
          0.99 * npMinD (clfW (maskSelect dataW3.x (dataW3.region.map (fun s => s == "train")))) ≤ p ∧
          p ≤ 1.01 * npMaxD (clfW (maskSelect dataW3.x (dataW3.region.map (fun s => s == "train"))))) ∧
      (logs.countP (isBandLine "predictions in live region") =
        if ∃ p ∈ (calc_yhat "live" clfW dataW3).2,
            p < 0.99 * npMinD (clfW (maskSelect dataW3.x (dataW3.region.map (fun s => s == "train")))) ∨
            p > 1.01 * npMaxD (clfW (maskSelect dataW3.x (dataW3.region.map (fun s => s == "train"))))
         then 1 else 0) ∧
      (logs.countP (isBandLine "predictions in live region") = 0 ↔
        ∀ p ∈ (calc_yhat "live" clfW dataW3).2,
          0.99 * npMinD (clfW (maskSelect dataW3.x (dataW3.region.map (fun s => s == "train")))) ≤ p ∧
          p ≤ 1.01 * npMaxD (clfW (maskSelect dataW3.x (dataW3.region.map (fun s => s == "train"))))) :=
  C3_prediction_band fitW (fun _ _ => 0) 0 dataW3 clfW rfl (by decide) (by decide)
    (by decide)

end Integrity

namespace Integrity

/-! ### C8: per-era label checks and the distinguished `eraX` bound -/

theorem append_prefix_ne {p q : String} (hlen : p.data.length = q.data.length)
    (hne : p ≠ q) (a b : String) : p ++ a ≠ q ++ b := by
  intro h
  apply hne
  have hd := congrArg String.data h
  rw [String.data_append, String.data_append] at hd
  exact String.ext (List.append_inj hd hlen).1

theorem append_cancel_left_str {p a b : String} (h : p ++ a = p ++ b) : a = b := by
  have hd := congrArg String.data h
  rw [String.data_append, String.data_append] at hd
  exact String.ext (List.append_cancel_left hd)

theorem mem_ivLine {x : LogLine} {m : String} {v lo hi : ℚ} (h : x ∈ ivLine m v lo hi) :
    x = LogLine.intervalFail "warn" m v lo hi ∧ (v < lo ∨ v > hi) := by
  revert h
  unfold ivLine
  split
  · intro h
    simp only [List.mem_singleton] at h
    exact ⟨h, by assumption⟩
  · intro h
    simp at h

theorem ivLine_mem_self {m : String} {v lo hi : ℚ} (h : v < lo ∨ v > hi) :
    LogLine.intervalFail "warn" m v lo hi ∈ ivLine m v lo hi := by
  unfold ivLine
  rw [if_pos h]
  exact List.mem_singleton.mpr rfl

theorem intervalFail_notmem_eqLine (lv m : String) (v lo hi : ℚ) (m2 : String)
    (v2 t2 : ℚ) : LogLine.intervalFail lv m v lo hi ∉ eqLine m2 v2 t2 := by
  unfold eqLine
  split <;> simp

/-- Membership in one era's block of `labels`: the line is the mean check
line or the count check line of that era, with the count bounds selected by
whether the era is the distinguished `eraX`. -/
theorem mem_eraBlock {x : LogLine} {y : List ℚ} {p : String × List ℕ}
    (h : x ∈ eraBlock y p) :
    (x = LogLine.intervalFail "warn" ("mean of labels in " ++ ljust p.1 6)
           (eraMean y p) 0.499 0.501 ∧
       (eraMean y p < 0.499 ∨ eraMean y p > 0.501)) ∨
    (x = LogLine.intervalFail "warn" ("num  of labels in " ++ ljust p.1 6)
           ((indexSelect y p.2).length : ℚ)
           (if p.1 = "eraX" then 270000 else 5920)
           (if p.1 = "eraX" then 280000 else 6800) ∧
       (((indexSelect y p.2).length : ℚ) < (if p.1 = "eraX" then 270000 else 5920) ∨
        ((indexSelect y p.2).length : ℚ) > (if p.1 = "eraX" then 280000 else 6800))) := by
  unfold eraBlock at h
  rcases List.mem_append.mp h with h1 | h1
  · exact Or.inl (mem_ivLine h1)
  · by_cases hx : p.1 = "eraX"
    · rw [if_pos hx] at h1
      have h2 := mem_ivLine h1
      refine Or.inr ?_
      rw [if_pos hx, if_pos hx]
      exact h2
    · rw [if_neg hx] at h1
      have h2 := mem_ivLine h1
      refine Or.inr ?_
      rw [if_neg hx, if_neg hx]
      exact h2

theorem eraBlock_mem_mean {y : List ℚ} {p : String × List ℕ}
    (h : eraMean y p < 0.499 ∨ eraMean y p > 0.501) :
    LogLine.intervalFail "warn" ("mean of labels in " ++ ljust p.1 6)
      (eraMean y p) 0.499 0.501 ∈ eraBlock y p := by
  unfold eraBlock
  exact List.mem_append.mpr (Or.inl (ivLine_mem_self h))

theorem eraBlock_mem_num {y : List ℚ} {p : String × List ℕ}
    (h : ((indexSelect y p.2).length : ℚ) < (if p.1 = "eraX" then 270000 else 5920) ∨
         ((indexSelect y p.2).length : ℚ) > (if p.1 = "eraX" then 280000 else 6800)) :
    LogLine.intervalFail "warn" ("num  of labels in " ++ ljust p.1 6)
      ((indexSelect y p.2).length : ℚ)
      (if p.1 = "eraX" then 270000 else 5920)
      (if p.1 = "eraX" then 280000 else 6800) ∈ eraBlock y p := by
  unfold eraBlock
  refine List.mem_append.mpr (Or.inr ?_)
  by_cases hx : p.1 = "eraX"
  · simp only [if_pos hx] at h ⊢
    exact ivLine_mem_self h
  · simp only [if_neg hx] at h ⊢
    exact ivLine_mem_self h

end Integrity

namespace Integrity

/-- C8: in `labels(data)`, each era of the iteration protocol has its label
mean checked against the narrow interval [0.499, 0.501] centered at 0.5 —
a warning line with those bounds appears iff the era's label mean is
outside them — and its row count checked against a fixed interval where
exactly the distinguished literal era identifier `eraX` selects the much
larger range [270000, 280000] and every other era selects [5920, 6800]:
the count warning for the era carries exactly the selected bounds, a count
warning with that era's message can carry no other bounds, and it appears
iff the count is outside the selected bounds.  (The hypothesis asks the
padded era names of the iteration protocol to be distinct, which holds for
genuinely distinct era labels.) -/
theorem C8_labels_era_bounds (data : Dataset) (e : String) (idx : List ℕ)
    (logs : List LogLine)
    (hmem : (e, idx) ∈ data.era_iter)
    (hnodup : (data.era_iter.map (fun p => ljust p.1 6)).Nodup)
    (hlog : labels data = Except.ok logs) :
    (LogLine.intervalFail "warn" ("mean of labels in " ++ ljust e 6)
        (listMean (indexSelect data.y idx)) 0.499 0.501 ∈ logs ↔
      (listMean (indexSelect data.y idx) < 0.499 ∨
       listMean (indexSelect data.y idx) > 0.501)) ∧
    (LogLine.intervalFail "warn" ("num  of labels in " ++ ljust e 6)
        ((indexSelect data.y idx).length : ℚ)
        (if e = "eraX" then 270000 else 5920)
        (if e = "eraX" then 280000 else 6800) ∈ logs ↔
      (((indexSelect data.y idx).length : ℚ) < (if e = "eraX" then 270000 else 5920) ∨
       ((indexSelect data.y idx).length : ℚ) > (if e = "eraX" then 280000 else 6800))) ∧
    (∀ v lo hi : ℚ,
      LogLine.intervalFail "warn" ("num  of labels in " ++ ljust e 6) v lo hi ∈ logs →
      lo = (if e = "eraX" then 270000 else 5920) ∧
      hi = (if e = "eraX" then 280000 else 6800)) := by
  have h0 : Except.ok logs = labels data := hlog.symm
  rw [labels_eq data] at h0
  have hlogs := Except.ok.inj h0
  subst hlogs
  have hinj : ∀ p ∈ data.era_iter, ljust p.1 6 = ljust e 6 → p = (e, idx) := by
    intro p hp hpe
    exact List.inj_on_of_nodup_map hnodup hp hmem hpe
  have hmn : ∀ a b : String, ("mean of labels in " ++ a) ≠ ("num  of labels in " ++ b) :=
    append_prefix_ne (by decide) (by decide)
  have hnm : ∀ a b : String, ("num  of labels in " ++ a) ≠ ("mean of labels in " ++ b) :=
    append_prefix_ne (by decide) (by decide)
  have hbm : ∀ a b : String, ("mean of labels in " ++ a) ≠ ("fraction of eras w" ++ b) :=
    append_prefix_ne (by decide) (by decide)
  have hbn : ∀ a b : String, ("num  of labels in " ++ a) ≠ ("fraction of eras w" ++ b) :=
    append_prefix_ne (by decide) (by decide)
  have hfr : "fraction of eras with label mean less than half" =
      "fraction of eras w" ++ "ith label mean less than half" := rfl
  refine ⟨⟨?_, ?_⟩, ⟨?_, ?_⟩, ?_⟩
  · intro hin
    rcases List.mem_cons.mp hin with hx | hx
    · exact absurd hx (by simp)
    rcases List.mem_append.mp hx with hx | hx
    · rcases List.mem_append.mp hx with hx | hx
      · exact absurd hx (intervalFail_notmem_eqLine _ _ _ _ _ _ _ _)
      · obtain ⟨blk, hblk, hxin⟩ := List.mem_flatten.mp hx
        obtain ⟨p, hp, rfl⟩ := List.mem_map.mp hblk
        rcases mem_eraBlock hxin with ⟨heq, hcond⟩ | ⟨heq, _⟩
        · simp only [LogLine.intervalFail.injEq] at heq
          have hpe := hinj p hp (append_cancel_left_str heq.2.1).symm
          rw [hpe] at hcond
          exact hcond
        · simp only [LogLine.intervalFail.injEq] at heq
          exact absurd heq.2.1 (hmn _ _)
    · have h2 := mem_ivLine hx
      have h3 := h2.1
      simp only [LogLine.intervalFail.injEq] at h3
      rw [hfr] at h3
      exact absurd h3.2.1 (hbm _ _)
  · intro hcond
    refine List.mem_cons.mpr (Or.inr (List.mem_append.mpr (Or.inl
      (List.mem_append.mpr (Or.inr (List.mem_flatten.mpr
        ⟨_, List.mem_map.mpr ⟨(e, idx), hmem, rfl⟩, ?_⟩))))))
    exact @eraBlock_mem_mean data.y (e, idx) hcond
  · intro hin
    rcases List.mem_cons.mp hin with hx | hx
    · exact absurd hx (by simp)
    rcases List.mem_append.mp hx with hx | hx
    · rcases List.mem_append.mp hx with hx | hx
      · exact absurd hx (intervalFail_notmem_eqLine _ _ _ _ _ _ _ _)
      · obtain ⟨blk, hblk, hxin⟩ := List.mem_flatten.mp hx
        obtain ⟨p, hp, rfl⟩ := List.mem_map.mp hblk
        rcases mem_eraBlock hxin with ⟨heq, _⟩ | ⟨heq, hcond⟩
        · simp only [LogLine.intervalFail.injEq] at heq
          exact absurd heq.2.1 (hnm _ _)
        · simp only [LogLine.intervalFail.injEq] at heq
          have hpe := hinj p hp (append_cancel_left_str heq.2.1).symm
          rw [hpe] at hcond
          exact hcond
    · have h2 := mem_ivLine hx
      have h3 := h2.1
      simp only [LogLine.intervalFail.injEq] at h3
      rw [hfr] at h3
      exact absurd h3.2.1 (hbn _ _)
  · intro hcond
    refine List.mem_cons.mpr (Or.inr (List.mem_append.mpr (Or.inl
      (List.mem_append.mpr (Or.inr (List.mem_flatten.mpr
        ⟨_, List.mem_map.mpr ⟨(e, idx), hmem, rfl⟩, ?_⟩))))))
    exact @eraBlock_mem_num data.y (e, idx) hcond
  · intro v lo hi hin
    rcases List.mem_cons.mp hin with hx | hx
    · exact absurd hx (by simp)
    rcases List.mem_append.mp hx with hx | hx
    · rcases List.mem_append.mp hx with hx | hx
      · exact absurd hx (intervalFail_notmem_eqLine _ _ _ _ _ _ _ _)
      · obtain ⟨blk, hblk, hxin⟩ := List.mem_flatten.mp hx
        obtain ⟨p, hp, rfl⟩ := List.mem_map.mp hblk
        rcases mem_eraBlock hxin with ⟨heq, _⟩ | ⟨heq, _⟩
        · simp only [LogLine.intervalFail.injEq] at heq
          exact absurd heq.2.1 (hnm _ _)
        · simp only [LogLine.intervalFail.injEq] at heq
          obtain ⟨-, hmsg, -, hlo, hhi⟩ := heq
          have hpe := hinj p hp (append_cancel_left_str hmsg).symm
          rw [hpe] at hlo hhi
          exact ⟨hlo, hhi⟩
    · have h2 := mem_ivLine hx
      have h3 := h2.1
      simp only [LogLine.intervalFail.injEq] at h3
      rw [hfr] at h3
      exact absurd h3.2.1 (hbn _ _)

end Integrity

namespace Integrity

/-- A small dataset exercising the `labels` era loop: two eras of three
rows each with label means 1/3 and 2/3. -/
def dataW8 : Dataset :=
  { ID := [], era := [], region := [], x := [], y := [0, 1],
    era_feature_iter := [],
    era_iter := [("e1", [0, 0, 1]), ("e2", [1, 1, 0])],
    nonmissing_label_index := [0, 1] }

/-- The log `labels` emits on `dataW8`. -/
def labelsLogsW : List LogLine :=
  [LogLine.info "LABELS",
   LogLine.intervalFail "warn" "mean of labels in e1    " (1/3) 0.499 0.501,
   LogLine.intervalFail "warn" "num  of labels in e1    " 3 5920 6800,
   LogLine.intervalFail "warn" "mean of labels in e2    " (2/3) 0.499 0.501,
   LogLine.intervalFail "warn" "num  of labels in e2    " 3 5920 6800]

/-- C8 witness: the theorem instantiated at era `e1` of `dataW8`. -/
theorem C8_labels_witness :
    (LogLine.intervalFail "warn" ("mean of labels in " ++ ljust "e1" 6)
        (listMean (indexSelect dataW8.y [0, 0, 1])) 0.499 0.501 ∈ labelsLogsW ↔
      (listMean (indexSelect dataW8.y [0, 0, 1]) < 0.499 ∨
       listMean (indexSelect dataW8.y [0, 0, 1]) > 0.501)) ∧
    (LogLine.intervalFail "warn" ("num  of labels in " ++ ljust "e1" 6)
        ((indexSelect dataW8.y [0, 0, 1]).length : ℚ)
        (if "e1" = "eraX" then 270000 else 5920)
        (if "e1" = "eraX" then 280000 else 6800) ∈ labelsLogsW ↔
      (((indexSelect dataW8.y [0, 0, 1]).length : ℚ) <
         (if "e1" = "eraX" then 270000 else 5920) ∨
       ((indexSelect dataW8.y [0, 0, 1]).length : ℚ) >
         (if "e1" = "eraX" then 280000 else 6800))) ∧
    (∀ v lo hi : ℚ,
      LogLine.intervalFail "warn" ("num  of labels in " ++ ljust "e1" 6) v lo hi ∈
          labelsLogsW →
      lo = (if "e1" = "eraX" then 270000 else 5920) ∧
      hi = (if "e1" = "eraX" then 280000 else 6800)) :=
  C8_labels_era_bounds dataW8 "e1" [0, 0, 1] labelsLogsW (by decide) (by decide)
    (by decide)

end Integrity

namespace Integrity

/-! ### C4: the full pipeline on a clean dataset, and completion -/

/-- All identifier statistics within bounds: no duplicate identifiers. -/
def cleanIds (data : Dataset) : Prop :=
  data.ID.length = (npUnique data.ID).length

/-- All era counts equal to the expected mapping. -/
def cleanEras (data : Dataset) : Prop :=
  ∀ p ∈ eraTarget, eraCount data p.1 = p.2

/-- The distinct region labels equal the expected region set. -/
def cleanRegions (data : Dataset) : Prop :=
  (npUnique data.region).all (fun r => regionTarget.contains r) ∧
  regionTarget.all (fun r => (npUnique data.region).contains r)

/-- One (era, feature) entry with every checked moment within its
reference bound (and a nonempty value vector, the precondition of the
range check). -/
def cleanFeatureEntry (sqrtF : ℚ → ℚ) (t : String × ℕ × List ℚ) : Prop :=
  t.2.2 ≠ [] ∧ (∀ v ∈ t.2.2, 0 ≤ v ∧ v ≤ 1) ∧
  0.45 ≤ listMean t.2.2 ∧ listMean t.2.2 ≤ 0.551 ∧
  0.09 ≤ sqrtF (listMean (t.2.2.map (fun v => (v - listMean t.2.2) ^ 2))) ∧
  sqrtF (listMean (t.2.2.map (fun v => (v - listMean t.2.2) ^ 2))) ≤ 0.15 ∧
  -0.44 ≤ listMean (t.2.2.map (fun v => (v - listMean t.2.2) ^ 3)) /
    sqrtF (listMean (t.2.2.map (fun v => (v - listMean t.2.2) ^ 2))) ^ 3 ∧
  listMean (t.2.2.map (fun v => (v - listMean t.2.2) ^ 3)) /
    sqrtF (listMean (t.2.2.map (fun v => (v - listMean t.2.2) ^ 2))) ^ 3 ≤ 0.44 ∧
  2.45 ≤ listMean (t.2.2.map (fun v => (v - listMean t.2.2) ^ 4)) /
    sqrtF (listMean (t.2.2.map (fun v => (v - listMean t.2.2) ^ 2))) ^ 4 ∧
  listMean (t.2.2.map (fun v => (v - listMean t.2.2) ^ 4)) /
    sqrtF (listMean (t.2.2.map (fun v => (v - listMean t.2.2) ^ 2))) ^ 4 ≤ 3.58

/-- All feature statistics within bounds. -/
def cleanFeatures (sqrtF : ℚ → ℚ) (corrcoef : List (List ℚ) → List (List ℚ))
    (data : Dataset) : Prop :=
  ((upper_triangle (corrcoef data.x.transpose)).map (fun v => |v|) ≠ [] ∧
   0.18 ≤ listMean ((upper_triangle (corrcoef data.x.transpose)).map (fun v => |v|)) ∧
   listMean ((upper_triangle (corrcoef data.x.transpose)).map (fun v => |v|)) ≤ 0.22 ∧
   0.72 ≤ npMaxD ((upper_triangle (corrcoef data.x.transpose)).map (fun v => |v|)) ∧
   npMaxD ((upper_triangle (corrcoef data.x.transpose)).map (fun v => |v|)) ≤ 0.76) ∧
  ∀ t ∈ data.era_feature_iter, cleanFeatureEntry sqrtF t

/-- All label statistics within bounds. -/
def cleanLabels (data : Dataset) : Prop :=
  (∀ v ∈ indexSelect data.y data.nonmissing_label_index, v = 0 ∨ v = 1) ∧
  (∀ p ∈ data.era_iter,
    (0.499 ≤ eraMean data.y p ∧ eraMean data.y p ≤ 0.501) ∧
    ((if p.1 = "eraX" then (270000 : ℚ) else 5920) ≤ ((indexSelect data.y p.2).length : ℚ) ∧
     ((indexSelect data.y p.2).length : ℚ) ≤ (if p.1 = "eraX" then 280000 else 6800))) ∧
  (0.4 ≤ boolMean ((data.era_iter.map (eraMean data.y)).map (fun v => decide (v < 0.5))) ∧
   boolMean ((data.era_iter.map (eraMean data.y)).map (fun v => decide (v < 0.5))) ≤ 0.6)

/-- The classifier fit succeeds (no hard failure), the prediction arrays
are nonempty, and every prediction statistic is within bounds. -/
def cleanPredictions (fit : List (List ℚ) → List ℚ → Except String (List (List ℚ) → List ℚ))
    (log_loss : List ℚ → List ℚ → ℚ) (log2 : ℚ) (data : Dataset)
    (clf : List (List ℚ) → List ℚ) : Prop :=
  fit (maskSelect data.x (data.region.map (fun s => s == "train")))
      (maskSelect data.y (data.region.map (fun s => s == "train"))) = Except.ok clf ∧
  clf (maskSelect data.x (data.region.map (fun s => s == "train"))) ≠ [] ∧
  (calc_yhat "test" clf data).2 ≠ [] ∧
  (calc_yhat "live" clf data).2 ≠ [] ∧
  (0.691 ≤ log_loss (maskSelect data.y (data.region.map (fun s => s == "train")))
      (clf (maskSelect data.x (data.region.map (fun s => s == "train")))) ∧
   log_loss (maskSelect data.y (data.region.map (fun s => s == "train")))
      (clf (maskSelect data.x (data.region.map (fun s => s == "train")))) ≤ 0.693) ∧
  (0.57 ≤ boolMean ((logloss_by_era log_loss
      (maskSelect data.era (data.region.map (fun s => s == "train")))
      (maskSelect data.y (data.region.map (fun s => s == "train")))
      (clf (maskSelect data.x (data.region.map (fun s => s == "train"))))).map
        (fun v => decide (v < log2))) ∧
   boolMean ((logloss_by_era log_loss
      (maskSelect data.era (data.region.map (fun s => s == "train")))
      (maskSelect data.y (data.region.map (fun s => s == "train")))
      (clf (maskSelect data.x (data.region.map (fun s => s == "train"))))).map
        (fun v => decide (v < log2))) ≤ 0.84) ∧
  (0.691 ≤ log_loss (calc_yhat "validation" clf data).1 (calc_yhat "validation" clf data).2 ∧
   log_loss (calc_yhat "validation" clf data).1 (calc_yhat "validation" clf data).2 ≤ 0.693) ∧
  (0.5 ≤ boolMean ((logloss_by_era log_loss
      (maskSelect data.era (data.region.map (fun s => s == "validation")))
      (calc_yhat "validation" clf data).1 (calc_yhat "validation" clf data).2).map
        (fun v => decide (v < log2))) ∧
   boolMean ((logloss_by_era log_loss
      (maskSelect data.era (data.region.map (fun s => s == "validation")))
      (calc_yhat "validation" clf data).1 (calc_yhat "validation" clf data).2).map
        (fun v => decide (v < log2))) ≤ 0.84) ∧
  (∀ p ∈ (calc_yhat "test" clf data).2,
    0.99 * npMinD (clf (maskSelect data.x (data.region.map (fun s => s == "train")))) ≤ p ∧
    p ≤ 1.01 * npMaxD (clf (maskSelect data.x (data.region.map (fun s => s == "train"))))) ∧
  (∀ p ∈ (calc_yhat "live" clf data).2,
    0.99 * npMinD (clf (maskSelect data.x (data.region.map (fun s => s == "train")))) ≤ p ∧
    p ≤ 1.01 * npMaxD (clf (maskSelect data.x (data.region.map (fun s => s == "train")))))

theorem momentsBlock_pass {sqrtF : ℚ → ℚ} {t : String × ℕ × List ℚ}
    (h : cleanFeatureEntry sqrtF t) : momentsBlock sqrtF t = [] := by
  obtain ⟨hne, hrange, hm1, hm2, hs1, hs2, hk1, hk2, hu1, hu2⟩ := h
  have h1 := npMin_spec (npMin_ok_of_ne hne)
  have h2 := npMax_spec (npMax_ok_of_ne hne)
  have hlo : (0 : ℚ) ≤ npMinD t.2.2 := (hrange _ h1.1).1
  have hhi : npMaxD t.2.2 ≤ 1 := (hrange _ h2.1).2
  simp [momentsBlock, aivLine_pass hlo hhi, ivLine_pass hm1 hm2,
    ivLine_pass hs1 hs2, ivLine_pass hk1 hk2, ivLine_pass hu1 hu2]

theorem eraBlock_pass {y : List ℚ} {p : String × List ℕ}
    (hm : 0.499 ≤ eraMean y p ∧ eraMean y p ≤ 0.501)
    (hc : (if p.1 = "eraX" then (270000 : ℚ) else 5920) ≤ ((indexSelect y p.2).length : ℚ) ∧
          ((indexSelect y p.2).length : ℚ) ≤ (if p.1 = "eraX" then 280000 else 6800)) :
    eraBlock y p = [] := by
  unfold eraBlock
  rw [ivLine_pass hm.1 hm.2]
  by_cases hx : p.1 = "eraX"
  · simp only [if_pos hx] at hc ⊢
    rw [ivLine_pass hc.1 hc.2]
    rfl
  · simp only [if_neg hx] at hc ⊢
    rw [ivLine_pass hc.1 hc.2]
    rfl

end Integrity

namespace Integrity

theorem ids_clean {data : Dataset} (h : cleanIds data) :
    ids data = Except.ok [LogLine.info "IDS"] := by
  rw [ids_eq data, eqLine_pass (by rw [h]; ring)]

theorem eras_clean {data : Dataset} (h : cleanEras data) :
    eras data = Except.ok [LogLine.info "ERAS"] := by
  have h1 := h ("train", 85) (by decide)
  have h2 := h ("validation", 12) (by decide)
  have h3 := h ("test", 1) (by decide)
  have h4 := h ("live", 1) (by decide)
  simp only at h1 h2 h3 h4
  rw [eras_eq data, eqLine_pass (by rw [h1]; norm_num),
    eqLine_pass (by rw [h2]; norm_num), eqLine_pass (by rw [h3]; norm_num),
    eqLine_pass (by rw [h4]; norm_num)]
  rfl

theorem features_clean {sqrtF : ℚ → ℚ} {corrcoef : List (List ℚ) → List (List ℚ)}
    {data : Dataset} (h : cleanFeatures sqrtF corrcoef data) :
    features sqrtF corrcoef data = Except.ok [LogLine.info "FEATURES"] := by
  obtain ⟨⟨hne, hc1, hc2, hc3, hc4⟩, hent⟩ := h
  rw [features_eq sqrtF corrcoef data (fun t ht => (hent t ht).1) hne,
    ivLine_pass hc1 hc2, ivLine_pass hc3 hc4]
  have hflat : (data.era_feature_iter.map (momentsBlock sqrtF)).flatten = [] := by
    rw [List.flatten_eq_nil_iff]
    intro l hl
    obtain ⟨t, ht, rfl⟩ := List.mem_map.mp hl
    exact momentsBlock_pass (hent t ht)
  rw [hflat]
  rfl

theorem labels_clean {data : Dataset} (h : cleanLabels data) :
    labels data = Except.ok [LogLine.info "LABELS"] := by
  obtain ⟨hval, hera, hb1, hb2⟩ := h
  have hcnt : (indexSelect data.y data.nonmissing_label_index).countP
      (fun v => decide (v = 0) || decide (v = 1)) =
      (indexSelect data.y data.nonmissing_label_index).length := by
    rw [List.countP_eq_length]
    intro a ha
    rcases hval a ha with h0 | h0 <;> simp [h0]
  have hflat : (data.era_iter.map (eraBlock data.y)).flatten = [] := by
    rw [List.flatten_eq_nil_iff]
    intro l hl
    obtain ⟨p, hp, rfl⟩ := List.mem_map.mp hl
    exact eraBlock_pass (hera p hp).1 (hera p hp).2
  rw [labels_eq data, eqLine_pass (by rw [hcnt]; ring), hflat,
    ivLine_pass hb1 hb2]
  rfl

theorem predictions_clean {fit : List (List ℚ) → List ℚ → Except String (List (List ℚ) → List ℚ)}
    {log_loss : List ℚ → List ℚ → ℚ} {log2 : ℚ} {data : Dataset}
    {clf : List (List ℚ) → List ℚ}
    (h : cleanPredictions fit log_loss log2 data clf) :
    predictions fit log_loss log2 data = Except.ok [LogLine.info "PREDICTIONS"] := by
  obtain ⟨hfit, htr, htest, hlive, ⟨ht1, ht2⟩, ⟨ht3, ht4⟩, ⟨hv1, hv2⟩, ⟨hv3, hv4⟩,
    hband1, hband2⟩ := h
  have hmt := npMin_spec (npMin_ok_of_ne htest)
  have hxt := npMax_spec (npMax_ok_of_ne htest)
  have hml := npMin_spec (npMin_ok_of_ne hlive)
  have hxl := npMax_spec (npMax_ok_of_ne hlive)
  rw [predictions_eq fit log_loss log2 data clf hfit htr htest hlive]
  simp only [predLog]
  rw [ivLine_pass ht1 ht2, ivLine_pass ht3 ht4, ivLine_pass hv1 hv2,
    ivLine_pass hv3 hv4,
    aivLine_pass (hband1 _ hmt.1).1 (hband1 _ hxt.1).2,
    aivLine_pass (hband2 _ hml.1).1 (hband2 _ hxl.1).2]
  rfl

theorem bind_ok_inv {α β : Type} {e : Except String α} {f : α → Except String β}
    {b : β} (h : e >>= f = Except.ok b) : ∃ a, e = Except.ok a ∧ f a = Except.ok b := by
  cases e with
  | error s => exact Except.noConfusion h
  | ok a => exact ⟨a, rfl, h⟩

theorem map_ok_inv {α β : Type} {e : Except String α} {f : α → β} {b : β}
    (h : (f <$> e) = Except.ok b) : ∃ a, e = Except.ok a ∧ f a = b := by
  cases e with
  | error s => exact absurd h (fun hh => Except.noConfusion hh)
  | ok a =>
    refine ⟨a, rfl, ?_⟩
    have := Except.ok.inj h
    exact this.symm ▸ rfl

theorem regions_shape (data : Dataset) :
    ∃ t, regions data = LogLine.info "REGIONS" :: t := by
  simp only [regions]
  split
  · exact ⟨[], rfl⟩
  · exact ⟨_, rfl⟩

theorem features_shape {sqrtF : ℚ → ℚ} {corrcoef : List (List ℚ) → List (List ℚ)}
    {data : Dataset} {logs : List LogLine}
    (h : features sqrtF corrcoef data = Except.ok logs) :
    ∃ t, logs = LogLine.info "FEATURES" :: t := by
  unfold features at h
  obtain ⟨l1, _, h⟩ := bind_ok_inv h
  obtain ⟨l2, _, h⟩ := bind_ok_inv h
  obtain ⟨cmax, _, h⟩ := bind_ok_inv h
  obtain ⟨l3, _, h⟩ := bind_ok_inv h
  obtain ⟨l4, _, hl⟩ := map_ok_inv h
  exact ⟨_, hl.symm⟩

theorem predictions_shape {fit : List (List ℚ) → List ℚ → Except String (List (List ℚ) → List ℚ)}
    {log_loss : List ℚ → List ℚ → ℚ} {log2 : ℚ} {data : Dataset} {logs : List LogLine}
    (h : predictions fit log_loss log2 data = Except.ok logs) :
    ∃ t, logs = LogLine.info "PREDICTIONS" :: t := by
  unfold predictions at h
  obtain ⟨clf, _, h⟩ := bind_ok_inv h
  obtain ⟨l1, _, h⟩ := bind_ok_inv h
  obtain ⟨l2, _, h⟩ := bind_ok_inv h
  obtain ⟨l3, _, h⟩ := bind_ok_inv h
  obtain ⟨l4, _, h⟩ := bind_ok_inv h
  obtain ⟨tmin1, _, h⟩ := bind_ok_inv h
  obtain ⟨tmax1, _, h⟩ := bind_ok_inv h
  obtain ⟨l5, _, h⟩ := bind_ok_inv h
  obtain ⟨tmin2, _, h⟩ := bind_ok_inv h
  obtain ⟨tmax2, _, h⟩ := bind_ok_inv h
  obtain ⟨l6, _, hl⟩ := map_ok_inv h
  exact ⟨_, hl.symm⟩

end Integrity

namespace Integrity

/-- C4: (completion) whenever the full pipeline `check(data)` returns
without a hard failure, the six informational section-marker lines appear
in the log in order — every check group ran; and (clean dataset) when
every checked statistic lies within its reference bound and no hard
failure occurs (the classifier fit succeeds and the arrays taken min/max
of are nonempty), the pipeline emits exactly the six section-marker lines
and no warning lines. -/
theorem C4_pipeline_clean_and_completion (sqrtF : ℚ → ℚ)
    (corrcoef : List (List ℚ) → List (List ℚ))
    (fit : List (List ℚ) → List ℚ → Except String (List (List ℚ) → List ℚ))
    (log_loss : List ℚ → List ℚ → ℚ) (log2 : ℚ) (data : Dataset) :
    (∀ logs, check sqrtF corrcoef fit log_loss log2 data = Except.ok logs →
      List.Sublist [LogLine.info "IDS", LogLine.info "ERAS", LogLine.info "REGIONS",
        LogLine.info "FEATURES", LogLine.info "LABELS", LogLine.info "PREDICTIONS"] logs) ∧
    (∀ clf, cleanIds data → cleanEras data → cleanRegions data →
      cleanFeatures sqrtF corrcoef data → cleanLabels data →
      cleanPredictions fit log_loss log2 data clf →
      check sqrtF corrcoef fit log_loss log2 data =
        Except.ok [LogLine.info "IDS", LogLine.info "ERAS", LogLine.info "REGIONS",
          LogLine.info "FEATURES", LogLine.info "LABELS", LogLine.info "PREDICTIONS"]) := by
  constructor
  · intro logs h
    unfold check at h
    obtain ⟨l1, h1, h⟩ := bind_ok_inv h
    obtain ⟨l2, h2, h⟩ := bind_ok_inv h
    obtain ⟨l4, h4, h⟩ := bind_ok_inv h
    obtain ⟨l5, h5, h⟩ := bind_ok_inv h
    obtain ⟨l6, h6, hl⟩ := map_ok_inv h
    have e1 : l1 = LogLine.info "IDS" ::
        eqLine "duplicate ids"
          ((data.ID.length : ℚ) - ((npUnique data.ID).length : ℚ)) 0 :=
      (Except.ok.inj ((ids_eq data).symm.trans h1)).symm
    have e2 : l2 = LogLine.info "ERAS" ::
        (eqLine "number of eras in train" ((eraCount data "train" : ℕ) : ℚ) 85 ++
         eqLine "number of eras in validation" ((eraCount data "validation" : ℕ) : ℚ) 12 ++
         eqLine "number of eras in test" ((eraCount data "test" : ℕ) : ℚ) 1 ++
         eqLine "number of eras in live" ((eraCount data "live" : ℕ) : ℚ) 1) :=
      (Except.ok.inj ((eras_eq data).symm.trans h2)).symm
    obtain ⟨t3, e3⟩ := regions_shape data
    obtain ⟨t4, e4⟩ := features_shape h4
    have e5 : ∃ t5, l5 = LogLine.info "LABELS" :: t5 :=
      ⟨_, (Except.ok.inj ((labels_eq data).symm.trans h5)).symm⟩
    obtain ⟨t5, e5⟩ := e5
    obtain ⟨t6, e6⟩ := predictions_shape h6
    rw [← hl, e1, e2, e3, e4, e5, e6]
    show List.Sublist
      ([LogLine.info "IDS"] ++ [LogLine.info "ERAS"] ++ [LogLine.info "REGIONS"] ++
       [LogLine.info "FEATURES"] ++ [LogLine.info "LABELS"] ++ [LogLine.info "PREDICTIONS"]) _
    exact List.Sublist.append (List.Sublist.append (List.Sublist.append
      (List.Sublist.append (List.Sublist.append
        (List.Sublist.cons₂ _ (List.nil_sublist _))
        (List.Sublist.cons₂ _ (List.nil_sublist _)))
        (List.Sublist.cons₂ _ (List.nil_sublist _)))
        (List.Sublist.cons₂ _ (List.nil_sublist _)))
        (List.Sublist.cons₂ _ (List.nil_sublist _)))
        (List.Sublist.cons₂ _ (List.nil_sublist _))
  · intro clf h1 h2 h3 h4 h5 h6
    have e1 := ids_clean h1
    have e2 := eras_clean h2
    have e3 := regions_clean data h3
    have e4 := features_clean h4
    have e5 := labels_clean h5
    have e6 := predictions_clean h6
    simp [check, e1, e2, e3, e4, e5, e6, ok_bind]

end Integrity

namespace Integrity

/-- Square-root collaborator for the clean witness (the one feature vector
used has its standard-deviation check satisfied by this value). -/
def sqrtFW : ℚ → ℚ := fun _ => 0.12

/-- Correlation collaborator for the clean witness: a fixed 4×4 matrix
whose strict upper triangle has mean 31/150 and maximum 0.74. -/
def corrcoefW : List (List ℚ) → List (List ℚ) :=
  fun _ => [[1, 0.74, 0.1, 0.1], [0, 1, 0.1, 0.1], [0, 0, 1, 0.1], [0, 0, 0, 1]]

/-- Log-loss collaborator for the clean witness: 0.692 on whole regions
(length at least 10), and per-era (singleton) groups score 0.5 or 0.9
according to the group's label. -/
def log_lossW : List ℚ → List ℚ → ℚ :=
  fun y _ => if 10 ≤ y.length then 0.692 else if y.headD 0 = 1 then 0.5 else 0.9

/-- Label column of the clean witness dataset: 60 ones among the 85 train
rows, 8 ones among the 12 validation rows. -/
def yColumnW : List ℚ :=
  [1, 0] ++ List.replicate 59 1 ++ List.replicate 24 0 ++
  List.replicate 8 1 ++ List.replicate 4 0 ++ [1, 0]

/-- A dataset on which every checked statistic lies within its reference
bound (given the witness collaborators). -/
def dataW4 : Dataset :=
  { ID := (List.range 99).map (fun i => "i" ++ toString i),
    era := eraColumnA,
    region := regionColumnA,
    x := List.replicate 99 [0],
    y := yColumnW,
    era_feature_iter := [("eF", 1, [0.34, 0.66])],
    era_iter := [("e1", List.replicate 2957 0 ++ List.replicate 2963 1),
                 ("e2", List.replicate 2963 0 ++ List.replicate 2957 1)],
    nonmissing_label_index := [0, 1] }

theorem indexSelect_append (y : List ℚ) (a b : List ℕ) :
    indexSelect y (a ++ b) = indexSelect y a ++ indexSelect y b :=
  List.map_append _ _ _

theorem indexSelect_replicate (y : List ℚ) (n i : ℕ) :
    indexSelect y (List.replicate n i) = List.replicate n (y.getD i 0) :=
  List.map_replicate

theorem foldl_add_eq (l : List ℚ) :
    ∀ c : ℚ, l.foldl (fun a b => a + b) c = c + listSum l := by
  induction l with
  | nil => intro c; simp [listSum]
  | cons x xs ih =>
    intro c
    rw [List.foldl_cons, ih (c + x)]
    have h2 : listSum (x :: xs) = 0 + x + listSum xs := by
      show List.foldl (fun a b => a + b) 0 (x :: xs) = 0 + x + listSum xs
      rw [List.foldl_cons]
      exact ih (0 + x)
    rw [h2]
    ring

theorem listSum_append (a b : List ℚ) : listSum (a ++ b) = listSum a + listSum b := by
  unfold listSum
  rw [List.foldl_append, foldl_add_eq]
  rfl

theorem listSum_replicate (n : ℕ) (a : ℚ) : listSum (List.replicate n a) = n * a := by
  induction n with
  | zero => simp [listSum]
  | succ k ih =>
    rw [List.replicate_succ]
    unfold listSum
    rw [List.foldl_cons, foldl_add_eq, ih]
    push_cast
    ring

theorem eraMean_A :
    eraMean yColumnW ("e1", List.replicate 2957 0 ++ List.replicate 2963 1) =
      2957 / 5920 := by
  unfold eraMean listMean
  rw [indexSelect_append, indexSelect_replicate, indexSelect_replicate,
    show yColumnW.getD 0 0 = 1 from rfl, show yColumnW.getD 1 0 = 0 from rfl,
    listSum_append, listSum_replicate, listSum_replicate, List.length_append,
    List.length_replicate, List.length_replicate]
  norm_num

theorem eraMean_B :
    eraMean yColumnW ("e2", List.replicate 2963 0 ++ List.replicate 2957 1) =
      2963 / 5920 := by
  unfold eraMean listMean
  rw [indexSelect_append, indexSelect_replicate, indexSelect_replicate,
    show yColumnW.getD 0 0 = 1 from rfl, show yColumnW.getD 1 0 = 0 from rfl,
    listSum_append, listSum_replicate, listSum_replicate, List.length_append,
    List.length_replicate, List.length_replicate]
  norm_num

theorem eraLen_A :
    ((indexSelect yColumnW (List.replicate 2957 0 ++ List.replicate 2963 1)).length : ℚ) =
      5920 := by
  unfold indexSelect
  rw [List.length_map, List.length_append, List.length_replicate, List.length_replicate]
  norm_num

theorem eraLen_B :
    ((indexSelect yColumnW (List.replicate 2963 0 ++ List.replicate 2957 1)).length : ℚ) =
      5920 := by
  unfold indexSelect
  rw [List.length_map, List.length_append, List.length_replicate, List.length_replicate]
  norm_num

theorem cleanLabels_W : cleanLabels dataW4 := by
  have hiter : dataW4.era_iter =
      [("e1", List.replicate 2957 0 ++ List.replicate 2963 1),
       ("e2", List.replicate 2963 0 ++ List.replicate 2957 1)] := rfl
  have hy : dataW4.y = yColumnW := rfl
  refine ⟨by decide, ?_, ?_⟩
  · intro p hp
    rw [hiter] at hp
    rw [hy]
    rcases List.mem_cons.mp hp with hpe | hp1
    · rw [hpe]
      refine ⟨?_, ?_⟩
      · rw [eraMean_A]
        norm_num
      · rw [eraLen_A]
        decide
    · rcases List.mem_cons.mp hp1 with hpe | hp2
      · rw [hpe]
        refine ⟨?_, ?_⟩
        · rw [eraMean_B]
          norm_num
        · rw [eraLen_B]
          decide
      · exact absurd hp2 (List.not_mem_nil p)
  · rw [hiter, hy]
    simp only [List.map_cons, List.map_nil]
    rw [eraMean_A, eraMean_B]
    decide

set_option maxRecDepth 200000 in
set_option maxHeartbeats 2000000 in
/-- C4 witness: the clean dataset yields exactly the six section markers,
and (completion) those markers form a sublist of the emitted log. -/
theorem C4_pipeline_witness :
    check sqrtFW corrcoefW fitW log_lossW (69 / 100) dataW4 =
      Except.ok [LogLine.info "IDS", LogLine.info "ERAS", LogLine.info "REGIONS",
        LogLine.info "FEATURES", LogLine.info "LABELS", LogLine.info "PREDICTIONS"] ∧
    List.Sublist [LogLine.info "IDS", LogLine.info "ERAS", LogLine.info "REGIONS",
        LogLine.info "FEATURES", LogLine.info "LABELS", LogLine.info "PREDICTIONS"]
      [LogLine.info "IDS", LogLine.info "ERAS", LogLine.info "REGIONS",
        LogLine.info "FEATURES", LogLine.info "LABELS", LogLine.info "PREDICTIONS"] := by
  have hclean := (C4_pipeline_clean_and_completion sqrtFW corrcoefW fitW log_lossW
      (69 / 100) dataW4).2 clfW
    (by unfold cleanIds; decide)
    (by unfold cleanEras; decide)
    (by unfold cleanRegions; decide)
    (by unfold cleanFeatures cleanFeatureEntry; decide)
    cleanLabels_W
    (by unfold cleanPredictions
        exact ⟨rfl, by decide, by decide, by decide, by decide, by decide, by decide,
          by decide, by decide, by decide⟩)
  exact ⟨hclean,
    (C4_pipeline_clean_and_completion sqrtFW corrcoefW fitW log_lossW
      (69 / 100) dataW4).1 _ hclean⟩

end Integrity
